import Mathlib

/-!
# Verification of the sqbrowser view/navigation state machine and expression subsystem

A shallow embedding of the core of `sqbrowser` (src/ui.rs, src/persistence.rs):
the Record Page data model, the computed-column expression engine
(`evaluate_expression_static`, `compute_aggregate_static`,
`compute_row_operation_static`, `compute_mixed_operation_static`,
`parse_and_add_computed_column`, `apply_computed_columns`,
`refresh_computed_columns`), the modal input handlers
(`handle_query_input`, `handle_data_navigation`, `handle_edit_mode`) and the
fingerprint logic of the computed-column store (`should_recalculate`).

Modelling conventions, used throughout:
* Rust `String` is modelled as `List Char` (`Str`); the strings manipulated by
  the program are ASCII, where Rust's byte indices coincide with character
  indices.
* Rust `f64` is modelled by `ℚ`.  The numeric literals occurring in the
  verified scenarios are small integers, on which `f64` arithmetic is exact
  and agrees with rational arithmetic.  `f64::from_str` is modelled by a
  parser for plain decimal literals (optional sign, digits, optional decimal
  point); the exponent/`inf`/`nan` forms are not modelled.
  `f64::fract() == 0.0` is modelled by the denominator being 1, and the
  `fold(f64::INFINITY, min)` / `fold(NEG_INFINITY, max)` aggregations are
  modelled by folding from the first element (all parsed values are finite).
* In-place mutation that survives an `Err` return (Rust `?` on `&mut self`
  methods) is modelled by returning the mutated value together with
  `Option Str` (the error), never by `Except` alone.
* The data-access collaborator, the persistence store and the clock are
  external to the core and are modelled as oracles (`DataSourceM`,
  `PersistenceM`) whose methods are given as functions.
-/

namespace SQB

/-- Rust `String`, modelled as a list of characters (ASCII coincidence of
byte and char indices). -/
abbrev Str := List Char

/-- Embed a Lean string literal as a `Str`. -/
def str (s : String) : Str := s.toList

/-- The single-quote character (used to build the error messages of ui.rs). -/
def q1 : Char := Char.ofNat 39

/-- Rust `str::trim` (ASCII whitespace; the program only meets ASCII). -/
def trimStr (s : Str) : Str :=
  ((s.dropWhile Char.isWhitespace).reverse.dropWhile Char.isWhitespace).reverse

/-- Fold a digit list into the natural number it denotes. Left inverse of
`natToStr`, used to prove injectivity of the rendered form. -/
def decParse (s : Str) : Nat :=
  s.foldl (fun a c => a * 10 + (c.toNat - 48)) 0

/-- Fuelled decimal rendering (the digit count of `n` never exceeds `n + 1`,
so the wrapper's fuel is ample; structural recursion keeps the definition
kernel-reducible). -/
def natToStrGo : Nat -> Nat -> Str
  | 0, _ => []
  | fuel + 1, n =>
    if n < 10 then [Nat.digitChar n]
    else natToStrGo fuel (n / 10) ++ [Nat.digitChar (n % 10)]

/-- Decimal rendering of a `Nat`, as Rust's `Display for u64` produces it. -/
def natToStr (n : Nat) : Str := natToStrGo (n + 1) n

/-- Decimal rendering of an `Int`, as Rust's `Display for i64`/`{:.0}` on an
integral value produces it. -/
def intToStr (n : Int) : Str :=
  if n < 0 then '-' :: natToStr n.natAbs else natToStr n.natAbs

/-- An exact `f64` value, kept as an unreduced fraction of integers
(`den` is never 0 on any path of the embedded code).  `f64` arithmetic is
exact on every value the verified scenarios produce, so exact fractions model
it faithfully there; `Mathlib`'s `Rat` is avoided only because its operations
do not reduce inside the kernel. -/
structure QV where
  num : Int
  den : Int
deriving DecidableEq

/-- The integer `n` as a value. -/
def qvInt (n : Int) : QV := ⟨n, 1⟩

/-- Zero. -/
def qvZero : QV := ⟨0, 1⟩

/-- Value addition. -/
def qvAdd (x y : QV) : QV := ⟨x.num * y.den + y.num * x.den, x.den * y.den⟩

/-- Value subtraction. -/
def qvSub (x y : QV) : QV := ⟨x.num * y.den - y.num * x.den, x.den * y.den⟩

/-- Value multiplication. -/
def qvMul (x y : QV) : QV := ⟨x.num * y.num, x.den * y.den⟩

/-- Value division (callers guard against a zero divisor, as the source
does). -/
def qvDiv (x y : QV) : QV := ⟨x.num * y.den, x.den * y.num⟩

/-- Value negation. -/
def qvNeg (x : QV) : QV := ⟨-x.num, x.den⟩

/-- `x == 0.0`. -/
def qvIsZero (x : QV) : Bool := x.num = 0

/-- `x < y` on values (cross-multiplied by the positive square
`(x.den * y.den)^2`). -/
def qvLt (x y : QV) : Bool :=
  (x.num * y.den) * (x.den * y.den) < (y.num * x.den) * (x.den * y.den)

/-- `f64::min`. -/
def qvMin (x y : QV) : QV := if qvLt x y then x else y

/-- `f64::max`. -/
def qvMax (x y : QV) : QV := if qvLt y x then x else y

/-- `x.fract() == 0.0`: the denominator divides the numerator. -/
def qvIsInt (x : QV) : Bool := x.num.emod x.den = 0

/-- The value is negative. -/
def qvIsNeg (x : QV) : Bool := x.num * x.den < 0

/-- `|x|`. -/
def qvAbs (x : QV) : QV := ⟨|x.num|, |x.den|⟩

/-- Floor of the value (`Int.fdiv` floors for a positive divisor). -/
def qvFloor (x : QV) : Int :=
  if x.den < 0 then Int.fdiv (-x.num) (-x.den) else Int.fdiv x.num x.den

/-- Round a nonnegative value to the nearest natural, ties to even:
the rounding Rust's `{:.*}` formatting applies to the scaled value. -/
def roundHalfEvenN (q : QV) : Nat :=
  let f := (qvFloor q).toNat
  let r := qvSub q (qvInt f)
  if qvLt r ⟨1, 2⟩ then f
  else if qvLt ⟨1, 2⟩ r then f + 1
  else if f % 2 = 0 then f else f + 1

/-- The two-digit tail of Rust's `{:.2}` formatting. -/
def twoDigits (m : Nat) : Str := [Nat.digitChar (m / 10), Nat.digitChar (m % 10)]

/-- Rust `format!("{:.2}", x)` on the model: sign, integer part, two rounded
fractional digits. -/
def fmtTwo (q : QV) : Str :=
  let n := roundHalfEvenN (qvMul (qvAbs q) (qvInt 100))
  (if qvIsNeg q then ['-'] else []) ++ natToStr (n / 100) ++ '.' :: twoDigits (n % 100)

/-- The result formatting used everywhere in ui.rs:
`if result.fract() == 0.0 { format!("{:.0}") } else { format!("{:.2}") }`;
`{:.0}` of an integral value prints its exact integer. -/
def format_result (q : QV) : Str :=
  if qvIsInt q then intToStr (q.num.ediv q.den) else fmtTwo q

/-- Value of a digit string. -/
def digitsVal (ds : Str) : Nat := decParse ds

/-- Model of `str::parse::<f64>()` restricted to plain decimal literals:
optional sign, then `digits`, `digits.digits`, `digits.` or `.digits`.
(The exponent, `inf` and `nan` forms accepted by Rust are not modelled;
no scenario below produces them.) -/
def parseFloat (s : Str) : Option QV :=
  let signed : Bool × Str :=
    match s with
    | '-' :: r => (true, r)
    | '+' :: r => (false, r)
    | r => (false, r)
  let neg := signed.1
  let r := signed.2
  let intPart := r.takeWhile Char.isDigit
  let rest := r.dropWhile Char.isDigit
  let mag : Option QV :=
    match rest with
    | [] => if intPart = [] then none else some (qvInt (digitsVal intPart))
    | '.' :: frac =>
      if frac.all Char.isDigit ∧ (intPart ≠ [] ∨ frac ≠ []) then
        some ⟨(digitsVal intPart : Int) * (10 ^ frac.length) + (digitsVal frac : Int),
              ((10 : Int) ^ frac.length)⟩
      else none
    | _ => none
  mag.map (fun m => if neg then qvNeg m else m)

/-- Fractional digits of a nonnegative value, at most `fuel` of them,
stopping at an exact representation (how `Display for f64` prints the short
fraction of the dyadic values arising here). -/
def fracDigits : Nat -> QV -> Str
  | 0, _ => []
  | fuel + 1, q =>
    if qvIsZero q then []
    else
      let q10 := qvMul q (qvInt 10)
      let d := qvFloor q10
      Nat.digitChar d.toNat :: fracDigits fuel (qvSub q10 (qvInt d))

/-- Model of `f64::to_string()` (Rust `Display`): integral values print with
no decimal point, others with their fractional digits (at most 17, the
maximum Rust prints). -/
def ratToStr (q : QV) : Str :=
  if qvIsInt q then intToStr (q.num.ediv q.den)
  else
    let a := qvAbs q
    (if qvIsNeg q then ['-'] else []) ++
      natToStr (qvFloor a).toNat ++ '.' :: fracDigits 17 (qvSub a (qvInt (qvFloor a)))

/-- Byte index of the last occurrence of `c` in `s` (Rust `str::rfind`). -/
def rfindIdx (s : Str) (c : Char) : Option Nat :=
  match s.reverse.findIdx? (fun x => x = c) with
  | some i => some (s.length - 1 - i)
  | none => none

/-- Rust `str::replace`: replace every (leftmost, non-overlapping) occurrence
of `pat` by `rep`.  The patterns used by ui.rs (column names, aggregate
spans) are never empty. -/
def replaceAllGo : Nat -> Str -> Str -> Str -> Str
  | 0, _, _, s => s
  | fuel + 1, pat, rep, s =>
    match s with
    | [] => []
    | c :: rest =>
      if pat = [] then c :: rest
      else if pat.isPrefixOf (c :: rest) then
        rep ++ replaceAllGo fuel pat rep ((c :: rest).drop pat.length)
      else c :: replaceAllGo fuel pat rep rest

/-- Rust `str::replace` with the argument order of the source call sites. -/
def replaceAllSub (s pat rep : Str) : Str := replaceAllGo s.length pat rep s

/-- Rust `str::trim_start_matches(pat)`: repeatedly strip the prefix `pat`
(fuelled; each step shortens the string, so `s.length` steps suffice). -/
def stripPrefixAllGo : Nat -> Str -> Str -> Str
  | 0, _, s => s
  | fuel + 1, pat, s =>
    if pat ≠ [] ∧ pat.isPrefixOf s then stripPrefixAllGo fuel pat (s.drop pat.length) else s

/-- Rust `str::trim_start_matches(pat)`. -/
def stripPrefixAll (pat s : Str) : Str := stripPrefixAllGo s.length pat s

/-- Rust `str::trim_start_matches(c)` for a single character. -/
def stripCharStart (c : Char) (s : Str) : Str := s.dropWhile (fun x => x = c)

/-- Rust `str::trim_end_matches(c)` for a single character. -/
def stripCharEnd (c : Char) (s : Str) : Str :=
  (s.reverse.dropWhile (fun x => x = c)).reverse

/-- Lexicographic (byte-wise, for ASCII) order on strings, as Rust's
`Ord for String` compares. -/
def lexLe : Str → Str → Bool
  | [], _ => true
  | _ :: _, [] => false
  | a :: as, b :: bs => if a < b then true else if b < a then false else lexLe as bs

/-- Stable insertion into a sorted list (model of `Vec::sort`; equal keys are
identical strings, so any correct sort yields the same list). -/
def insertSorted (x : Str) : List Str → List Str
  | [] => [x]
  | y :: ys => if lexLe x y then x :: y :: ys else y :: insertSorted x ys

/-- Model of `Vec::sort` on strings. -/
def sortStrs (l : List Str) : List Str := l.foldr insertSorted []

/-- Rust `Vec::dedup` helper: emit `a`, collapsing the adjacent run equal to
it. -/
def dedupAdjGo (a : Str) : List Str -> List Str
  | [] => [a]
  | b :: rest => if a = b then dedupAdjGo a rest else a :: dedupAdjGo b rest

/-- Rust `Vec::dedup`: collapse adjacent equal elements. -/
def dedupAdj : List Str -> List Str
  | [] => []
  | a :: rest => dedupAdjGo a rest

/-- Substring containment test (used to state facts about error texts). -/
def containsSub (s pat : Str) : Bool :=
  (List.range (s.length + 1)).any (fun i => pat.isPrefixOf (s.drop i))

/-! ## The Record Page data model (src/database.rs `QueryResult`) -/

/-- `QueryResult` of src/database.rs: the Record Page. -/
structure QueryResult where
  columns : List Str
  rows : List (List Str)
  total_rows : Nat
deriving DecidableEq

/-- `ComputedColumnType` of src/ui.rs. -/
inductive ComputedColumnType where
  | Aggregate (func : Str)
  | RowOperation (columns_used : List Str)
  | MixedOperation (columns_used : List Str) (aggregate_expressions : List Str)
deriving DecidableEq

/-- `ComputedColumn` of src/ui.rs. -/
structure ComputedColumn where
  name : Str
  expression : Str
  column_type : ComputedColumnType
deriving DecidableEq

/-! ## Expression engine (src/ui.rs lines 1058-1459) -/

/-- The five aggregate function names. -/
def aggFuncs : List Str := [str "sum", str "mean", str "count", str "min", str "max"]

/-- `values.iter().sum::<f64>()`. -/
def listSum (values : List QV) : QV := values.foldl qvAdd qvZero

/-- `values.iter().fold(f64::INFINITY, |a, &b| a.min(b))` over the (finite)
parsed values: folding from the first element. -/
def listMinQ : List QV -> QV
  | [] => qvZero
  | v :: vs => vs.foldl qvMin v

/-- `values.iter().fold(f64::NEG_INFINITY, |a, &b| a.max(b))` likewise. -/
def listMaxQ : List QV -> QV
  | [] => qvZero
  | v :: vs => vs.foldl qvMax v

/-- `left.parse::<f64>()?` inside the evaluator: a parse failure is an error. -/
def parseForOp (s : Str) : Except Str QV :=
  match parseFloat s with
  | some q => Except.ok q
  | none => Except.error (str "invalid float literal")

/-- The base case of the evaluator: a parsable number is formatted, anything
else is returned as-is. -/
def evalBase (expr : Str) : Except Str Str :=
  match parseFloat expr with
  | some num => Except.ok (format_result num)
  | none => Except.ok expr

/-- `evaluate_expression_static` (ui.rs:1302-1384), fuelled: spaces removed,
then the rightmost `(` with a following `)` is reduced first; otherwise the
expression is split at the rightmost `*`, `/`, `+`, `-` (in that order of
priority), and a bare operand is parsed.  The source recursion has no fuel;
every use below supplies ample fuel. -/
def evaluate_expression_go : Nat → Str → Except Str Str
  | 0, _ => Except.error (str "recursion fuel exhausted")
  | fuel + 1, e =>
    let expr := e.filter (fun c => c ≠ ' ')
    let parenStep : Option (Except Str Str) :=
      match rfindIdx expr '(' with
      | some start =>
        match (expr.drop start).findIdx? (fun c => c = ')') with
        | some endr =>
          some (match evaluate_expression_go fuel ((expr.drop (start + 1)).take (endr - 1)) with
            | Except.error er => Except.error er
            | Except.ok innerRes =>
              evaluate_expression_go fuel
                (expr.take start ++ innerRes ++ expr.drop (start + endr + 1)))
        | none => none
      | none => none
    match parenStep with
    | some r => r
    | none =>
      match rfindIdx expr '*' with
      | some pos => do
        let left ← evaluate_expression_go fuel (expr.take pos)
        let right ← evaluate_expression_go fuel (expr.drop (pos + 1))
        let lv ← parseForOp left
        let rv ← parseForOp right
        pure (format_result (qvMul lv rv))
      | none =>
        match rfindIdx expr '/' with
        | some pos => do
          let left ← evaluate_expression_go fuel (expr.take pos)
          let right ← evaluate_expression_go fuel (expr.drop (pos + 1))
          let rv ← parseForOp right
          if qvIsZero rv then Except.error (str "Division by zero")
          else do
            let lv ← parseForOp left
            pure (format_result (qvDiv lv rv))
        | none =>
          match rfindIdx expr '+' with
          | some pos => do
            let left ← evaluate_expression_go fuel (expr.take pos)
            let right ← evaluate_expression_go fuel (expr.drop (pos + 1))
            let lv ← parseForOp left
            let rv ← parseForOp right
            pure (format_result (qvAdd lv rv))
          | none =>
            match rfindIdx expr '-' with
            | some pos =>
              if pos > 0 then do
                let left ← evaluate_expression_go fuel (expr.take pos)
                let right ← evaluate_expression_go fuel (expr.drop (pos + 1))
                let lv ← parseForOp left
                let rv ← parseForOp right
                pure (format_result (qvSub lv rv))
              else evalBase expr
            | none => evalBase expr

/-- `evaluate_expression_static` with ample fuel. -/
def evaluate_expression_static (expr : Str) : Except Str Str :=
  evaluate_expression_go (expr.length + 100) expr

/-- The column-name extraction performed by `compute_aggregate_static`. -/
def aggColumnName (func expression : Str) : Str :=
  trimStr (stripCharEnd ')' (stripCharStart '(' (stripPrefixAll func expression)))

/-- The guarded cell lookup of `compute_aggregate_static`: the parsed value
of row cell `i`, if the cell exists and parses. -/
def parsedCell (row : List Str) (i : Nat) : Option QV :=
  match row.get? i with
  | some cell => parseFloat cell
  | none => none

/-- `compute_aggregate_static` (ui.rs:1199-1244): extract the column name by
stripping the function name, parentheses and whitespace, locate the column,
parse every row's cell (skipping the unparsable), and aggregate. -/
def compute_aggregate_static (data : QueryResult) (func : Str) (expression : Str) :
    Except Str Str :=
  let column_name := aggColumnName func expression
  match data.columns.findIdx? (fun col => col = column_name) with
  | none => Except.error (str "Column " ++ [q1] ++ column_name ++ [q1] ++ str " not found")
  | some col_idx =>
    let values := data.rows.filterMap (fun row => parsedCell row col_idx)
    if values = [] then Except.ok (str "0")
    else if func = str "sum" then Except.ok (format_result (listSum values))
    else if func = str "mean" then
      Except.ok (format_result (qvDiv (listSum values) (qvInt values.length)))
    else if func = str "count" then Except.ok (format_result (qvInt values.length))
    else if func = str "min" then Except.ok (format_result (listMinQ values))
    else if func = str "max" then Except.ok (format_result (listMaxQ values))
    else Except.error (str "Unknown function: " ++ func)

/-- The column-substitution loop shared verbatim by
`compute_row_operation_static` and `compute_mixed_operation_static`:
every referenced column name present in the page is replaced by the row's
parsed value (unparsable text coerces to 0), rendered back to text. -/
def substColumns (data : QueryResult) (row : List Str) (columns_used : List Str)
    (expression : Str) : Str :=
  columns_used.foldl (fun e col_name =>
    match data.columns.findIdx? (fun col => col = col_name) with
    | some col_idx =>
      match row.get? col_idx with
      | some cell => replaceAllSub e col_name (ratToStr ((parseFloat cell).getD qvZero))
      | none => e
    | none => e) expression

/-- `compute_row_operation_static` (ui.rs:1246-1266). -/
def compute_row_operation_static (data : QueryResult) (row : List Str)
    (expression : Str) (columns_used : List Str) : Except Str Str :=
  evaluate_expression_static (substColumns data row columns_used expression)

/-- The anchored regex `^(sum|mean|count|min|max)\(([^)]+)\)$`: the function
name and the (untrimmed) capture between the parentheses. -/
def anchoredAggBody (f s : Str) : Option Str :=
  if f.isPrefixOf s then
    match s.drop f.length with
    | '(' :: rest =>
      if rest.getLast? = some ')' ∧ rest.dropLast ≠ [] ∧
          rest.dropLast.all (fun c => c ≠ ')') then
        some rest.dropLast
      else none
    | _ => none
  else none

/-- First (and only possible) anchored aggregate match among the five
function names. -/
def anchoredAggMatch (s : Str) : Option (Str × Str) :=
  match anchoredAggBody (str "sum") s with
  | some b => some (str "sum", b)
  | none =>
    match anchoredAggBody (str "mean") s with
    | some b => some (str "mean", b)
    | none =>
      match anchoredAggBody (str "count") s with
      | some b => some (str "count", b)
      | none =>
        match anchoredAggBody (str "min") s with
        | some b => some (str "min", b)
        | none =>
          match anchoredAggBody (str "max") s with
          | some b => some (str "max", b)
          | none => none

/-- The aggregate-substitution pass of `compute_mixed_operation_static`
(ui.rs:1277-1286): each aggregate subexpression matching the anchored regex
is evaluated once against the whole page (`data`; no row is involved) and
every occurrence replaced by the scalar. -/
def substAggregates (data : QueryResult) (aggs : List Str) (expression : Str) :
    Except Str Str :=
  match aggs with
  | [] => Except.ok expression
  | agg_expr :: rest =>
    match anchoredAggMatch agg_expr with
    | some (func, _) =>
      match compute_aggregate_static data func agg_expr with
      | Except.error e => Except.error e
      | Except.ok agg_value => substAggregates data rest (replaceAllSub expression agg_expr agg_value)
    | none => substAggregates data rest expression

/-- `compute_mixed_operation_static` (ui.rs:1268-1300): aggregates first
(whole-page scalars), then per-row column substitution, then evaluation. -/
def compute_mixed_operation_static (data : QueryResult) (row : List Str)
    (expression : Str) (columns_used : List Str) (aggregate_expressions : List Str) :
    Except Str Str :=
  match substAggregates data aggregate_expressions expression with
  | Except.error e => Except.error e
  | Except.ok expr1 => evaluate_expression_static (substColumns data row columns_used expr1)

/-- The token separators of `extract_column_names` (ui.rs:1058-1103). -/
def isSepChar (c : Char) : Bool :=
  ['+', '-', '*', '/', '(', ')', ' ', ','].contains c

/-- Keep a token unless it parses as a number or is a function name. -/
def keepToken (token : Str) (acc : List Str) : List Str :=
  if parseFloat token = none ∧ ¬ aggFuncs.contains token then acc ++ [token] else acc

/-- The scanning loop of `extract_column_names`. -/
def extract_column_names_go : Str → Str → Bool → List Str → List Str
  | [], current, in_col, acc =>
    if in_col ∧ trimStr current ≠ [] then keepToken (trimStr current) acc else acc
  | ch :: rest, current, in_col, acc =>
    if isSepChar ch then
      if in_col ∧ trimStr current ≠ [] then
        extract_column_names_go rest [] false (keepToken (trimStr current) acc)
      else extract_column_names_go rest current in_col acc
    else
      let in_col2 := if ¬ in_col ∧ ¬ ch.isWhitespace then true else in_col
      let current2 := if in_col2 then current ++ [ch] else current
      extract_column_names_go rest current2 in_col2 acc

/-- `extract_column_names` (ui.rs:1058-1103): scan maximal identifier-like
tokens, then `sort` and `dedup`. -/
def extract_column_names (expression : Str) : List Str :=
  dedupAdj (sortStrs (extract_column_names_go expression [] false []))

/-- One attempted match of the unanchored regex
`(sum|mean|count|min|max)\([^)]+\)` at the start of `s`:
the matched span and the remaining input. -/
def tryAggAt (s : Str) : Option (Str × Str) :=
  (aggFuncs.filterMap (fun f =>
    if f.isPrefixOf s ∧ (s.drop f.length).head? = some '(' then
      let afterParen := s.drop (f.length + 1)
      match afterParen.findIdx? (fun c => c = ')') with
      | some j =>
        if j > 0 then
          some (f ++ '(' :: afterParen.take j ++ [')'], afterParen.drop (j + 1))
        else none
      | none => none
    else none)).head?

/-- The left-to-right scan of `captures_iter`: leftmost non-overlapping
matches.  Each step consumes at least one character, so fuel
`s.length` suffices. -/
def scanAggsGo : Nat → Str → List Str
  | 0, _ => []
  | fuel + 1, s =>
    match s with
    | [] => []
    | _ :: rest =>
      match tryAggAt s with
      | some (m, remaining) => m :: scanAggsGo fuel remaining
      | none => scanAggsGo fuel rest

/-- `extract_aggregate_expressions` (ui.rs:1105-1116). -/
def extract_aggregate_expressions (expression : Str) : List Str :=
  scanAggsGo expression.length expression

/-- `extract_column_from_aggregate` (ui.rs:1118-1131): the trimmed capture of
the anchored aggregate regex, or an error. -/
def extract_column_from_aggregate (aggregate_expr : Str) : Except Str Str :=
  match anchoredAggMatch aggregate_expr with
  | some (_, content) => Except.ok (trimStr content)
  | none => Except.error (str "Invalid aggregate expression: " ++ aggregate_expr)

/-- The error text `Column '<c>' does not exist`. -/
def colNotExistMsg (c : Str) : Str :=
  str "Column " ++ [q1] ++ c ++ [q1] ++ str " does not exist"

/-- The generic error text of the fallback branch of
`parse_and_add_computed_column`. -/
def invalidExprMsg : Str :=
  str "Invalid expression format. Use sum(Column), mean(Column), Column1 + Column2, or numeric constants"

/-- The aggregate-column validation loop of the arithmetic branch
(ui.rs:999-1009). -/
def check_aggregate_columns (data : QueryResult) : List Str → Except Str Unit
  | [] => Except.ok ()
  | agg_expr :: rest =>
    match extract_column_from_aggregate agg_expr with
    | Except.error e => Except.error e
    | Except.ok column_in_agg =>
      if ¬ data.columns.contains column_in_agg then
        Except.error (str "Column " ++ [q1] ++ column_in_agg ++ [q1] ++
          str " in aggregate " ++ [q1] ++ agg_expr ++ [q1] ++ str " does not exist")
      else check_aggregate_columns data rest

/-- The custom-name split of `parse_and_add_computed_column` (ui.rs:937-954):
at the first `=` the text before it becomes the column name (trimmed,
non-empty, alphanumeric-or-underscore) and the text after it the expression;
with no `=` the whole input is the expression. -/
def nameSplit (expression : Str) : Except Str (Option Str × Str) :=
  match expression.findIdx? (fun c => c = '=') with
  | some eq_pos =>
    let name := trimStr (expression.take eq_pos)
    let expr := trimStr (expression.drop (eq_pos + 1))
    if name = [] ∨ expr = [] then
      Except.error (str "Invalid syntax. Use " ++ [q1] ++ str "column_name=expression" ++ [q1])
    else if ¬ name.all (fun c => c.isAlphanum ∨ c = '_') then
      Except.error (str "Column name can only contain letters, numbers, and underscores")
    else Except.ok (some name, expr)
  | none => Except.ok (none, expression)

/-- `parse_and_add_computed_column` (ui.rs:933-1056).  The source mutates
`self.computed_columns` only after all validation; an error therefore leaves
the list untouched, which the `Except` result models. -/
def parse_and_add_computed_column (current_data : Option QueryResult)
    (computed_columns : List ComputedColumn) (expression : Str) :
    Except Str (List ComputedColumn) :=
  match nameSplit (trimStr expression) with
  | Except.error e => Except.error e
  | Except.ok (column_name, expr_part) =>
    match anchoredAggMatch expr_part with
    | some (func, capture) =>
      let column := trimStr capture
      let ok : Except Str Unit :=
        match current_data with
        | some data =>
          if ¬ data.columns.contains column then Except.error (colNotExistMsg column)
          else Except.ok ()
        | none => Except.ok ()
      match ok with
      | Except.error e => Except.error e
      | Except.ok _ =>
        Except.ok (computed_columns ++
          [{ name := column_name.getD (func ++ '(' :: column ++ [')']),
             expression := expr_part,
             column_type := ComputedColumnType.Aggregate func }])
    | none =>
      if expr_part.contains '+' ∨ expr_part.contains '-' ∨ expr_part.contains '*' ∨
          expr_part.contains '/' ∨
          expr_part.all (fun c => c.isDigit ∨ c = '.' ∨ c = ' ') then
        let columns_used := extract_column_names expr_part
        let aggregate_expressions := extract_aggregate_expressions expr_part
        let ok : Except Str Unit :=
          match current_data with
          | some data =>
            match columns_used.find? (fun col => ¬ data.columns.contains col) with
            | some col => Except.error (colNotExistMsg col)
            | none => check_aggregate_columns data aggregate_expressions
          | none => Except.ok ()
        match ok with
        | Except.error e => Except.error e
        | Except.ok _ =>
          let column_type :=
            if aggregate_expressions = [] then
              ComputedColumnType.RowOperation columns_used
            else
              ComputedColumnType.MixedOperation columns_used aggregate_expressions
          Except.ok (computed_columns ++
            [{ name := column_name.getD expr_part,
               expression := expr_part, column_type := column_type }])
      else if (parseFloat (trimStr expr_part)).isSome then
        Except.ok (computed_columns ++
          [{ name := column_name.getD expr_part, expression := expr_part,
             column_type := ComputedColumnType.RowOperation [] }])
      else
        match current_data with
        | some data =>
          if data.columns.contains expr_part then
            Except.ok (computed_columns ++
              [{ name := column_name.getD expr_part, expression := expr_part,
                 column_type := ComputedColumnType.RowOperation [expr_part] }])
          else Except.error invalidExprMsg
        | none => Except.error invalidExprMsg

/-! ## Applying and refreshing computed columns (ui.rs:1133-1197, 1386-1459) -/

/-- The removal step of `apply_computed_columns`: if a column with this name
exists, remove it from the column list and (guardedly) from every row. -/
def removeColumnByName (data : QueryResult) (name : Str) : QueryResult :=
  match data.columns.findIdx? (fun x => x = name) with
  | some pos =>
    { data with
      columns := data.columns.eraseIdx pos,
      rows := data.rows.map (fun row => if pos < row.length then row.eraseIdx pos else row) }
  | none => data

/-- Collect one computed value per row, stopping at the first error (the
`?` inside the source's per-row loop). -/
def computeRowValues (f : List Str → Except Str Str) : List (List Str) → Except Str (List Str)
  | [] => Except.ok []
  | row :: rest =>
    match f row with
    | Except.error e => Except.error e
    | Except.ok v =>
      match computeRowValues f rest with
      | Except.error e => Except.error e
      | Except.ok vs => Except.ok (v :: vs)

/-- The addition step shared by `apply_computed_columns` and
`refresh_computed_columns`: push the column name, compute the values with the
name already pushed, then push one value per row.  An error (`?`) leaves the
name pushed but the rows unextended — the in-place mutation the source keeps. -/
def addComputedColumn (data0 : QueryResult) (cc : ComputedColumn) : QueryResult × Option Str :=
  let data := { data0 with columns := data0.columns ++ [cc.name] }
  match cc.column_type with
  | ComputedColumnType.Aggregate func =>
    match compute_aggregate_static data func cc.expression with
    | Except.error e => (data, some e)
    | Except.ok value =>
      ({ data with rows := data.rows.map (fun row => row ++ [value]) }, none)
  | ComputedColumnType.RowOperation columns_used =>
    match computeRowValues
        (fun row => compute_row_operation_static data row cc.expression columns_used)
        data.rows with
    | Except.error e => (data, some e)
    | Except.ok vals =>
      ({ data with rows := data.rows.zipWith (fun row v => row ++ [v]) vals }, none)
  | ComputedColumnType.MixedOperation columns_used aggs =>
    match computeRowValues
        (fun row => compute_mixed_operation_static data row cc.expression columns_used aggs)
        data.rows with
    | Except.error e => (data, some e)
    | Except.ok vals =>
      ({ data with rows := data.rows.zipWith (fun row v => row ++ [v]) vals }, none)

/-- `apply_computed_columns` (ui.rs:1133-1197) at the Record-Page level:
for each computed column in order, remove any same-named column, then add. -/
def applyCCListGo : List ComputedColumn → QueryResult → QueryResult × Option Str
  | [], data => (data, none)
  | cc :: rest, data =>
    let step := addComputedColumn (removeColumnByName data cc.name) cc
    match step.2 with
    | some e => (step.1, some e)
    | none => applyCCListGo rest step.1

/-- Remove the column (and row cells) at one index. -/
def removeIdxFromData (data : QueryResult) (pos : Nat) : QueryResult :=
  { data with
    columns := data.columns.eraseIdx pos,
    rows := data.rows.map (fun row => if pos < row.length then row.eraseIdx pos else row) }

/-- Descending insertion (model of `sort_by(|a, b| b.cmp(a))`). -/
def insertDescNat (x : Nat) : List Nat → List Nat
  | [] => [x]
  | y :: ys => if x ≥ y then x :: y :: ys else y :: insertDescNat x ys

/-- Sort indices in descending order. -/
def sortNatDesc (l : List Nat) : List Nat := l.foldr insertDescNat []

/-- The removal phase of `refresh_computed_columns`: collect the position of
every computed column present, sort descending, remove each in turn. -/
def refreshRemove (ccs : List ComputedColumn) (data : QueryResult) : QueryResult :=
  let cols_to_remove := ccs.filterMap (fun cc => data.columns.findIdx? (fun x => x = cc.name))
  (sortNatDesc cols_to_remove).foldl removeIdxFromData data

/-- The re-addition phase of `refresh_computed_columns` (same per-column code
as `apply_computed_columns`, without the removal). -/
def addAllComputedColumns : List ComputedColumn → QueryResult → QueryResult × Option Str
  | [], data => (data, none)
  | cc :: rest, data =>
    let step := addComputedColumn data cc
    match step.2 with
    | some e => (step.1, some e)
    | none => addAllComputedColumns rest step.1

/-- `refresh_computed_columns` (ui.rs:1386-1459) at the Record-Page level. -/
def refreshCCList (ccs : List ComputedColumn) (data : QueryResult) : QueryResult × Option Str :=
  addAllComputedColumns ccs (refreshRemove ccs data)

/-! ## The navigation controller (src/ui.rs `AppState` and handlers) -/

/-- `NavigationMode` of src/ui.rs. -/
inductive NavigationMode where
  | Table
  | Data
  | Query
  | Edit
  | DetailedView
  | ErrorDisplay
  | ComputedColumn
deriving DecidableEq

/-- `MoveTo` of src/ui.rs. -/
inductive MoveTo where
  | up
  | down
  | left
  | right
deriving DecidableEq

/-- The key codes the three modelled handlers distinguish. -/
inductive KeyCode where
  | up
  | down
  | left
  | right
  | pageUp
  | pageDown
  | home
  | endKey
  | enter
  | esc
  | backspace
  | tab
  | char (c : Char)
  | other
deriving DecidableEq

/-- The `DataSource` variants of src/data_source.rs. -/
inductive SourceKind where
  | Csv
  | Xlsx
  | Sqlite
  | Parquet
deriving DecidableEq

/-- The data-access collaborator (src/data_source.rs), as an oracle.
`timestamp` stands for the chrono clock used in generated file names. -/
structure DataSourceM where
  supports_custom_queries : Bool
  execute_custom_query : Str → Str → Nat → Nat → Except Str QueryResult
  get_table_data : Str → Nat → Nat → Except Str QueryResult
  export_table_to_csv : Str → Str → Except Str Nat
  export_query_to_csv : Str → Str → Except Str Nat
  write_csv : QueryResult → Str → Except Str Unit
  kind : SourceKind
  timestamp : Str

/-- The computed-column store (src/persistence.rs) as seen by the controller,
for the session's fixed `db_path`: whether the file fingerprint is stale, and
the per-table load. -/
structure PersistenceM where
  should_recalculate : Bool
  load_computed_columns : Str → Except Str (List ComputedColumn)

/-- `AppState` of src/ui.rs (the clipboard and persistence handles live in
the oracles; `db_path` is fixed for the session). -/
structure AppState where
  tables : List Str
  selected_table_idx : Nat
  selected_row_idx : Nat
  selected_col_idx : Nat
  navigation_mode : NavigationMode
  current_query : Option Str
  query_input : Str
  data_offset : Nat
  page_size : Nat
  current_data : Option QueryResult
  original_data : Option QueryResult
  status_message : Option Str
  show_help : Bool
  edit_input : Str
  editing_cell : Option (Nat × Nat)
  data_modified : Bool
  detailed_view_row : Option Nat
  detailed_view_selected_field : Nat
  error_message : Option Str
  previous_navigation_mode : NavigationMode
  computed_column_input : Str
  computed_columns : List ComputedColumn
deriving DecidableEq

/-- `current_table` (ui.rs:112-114). -/
def current_table (st : AppState) : Option Str :=
  st.tables.get? st.selected_table_idx

/-- `show_error` (ui.rs:860-864): record the message, remember the current
mode, switch to `ErrorDisplay`. -/
def show_error (st : AppState) (error : Str) : AppState :=
  { st with
    error_message := some error,
    previous_navigation_mode := st.navigation_mode,
    navigation_mode := NavigationMode.ErrorDisplay }

/-- `reset_data_view` (ui.rs:616-626). -/
def reset_data_view (st : AppState) : AppState :=
  { st with
    current_query := none,
    current_data := none,
    original_data := none,
    selected_row_idx := 0,
    selected_col_idx := 0,
    data_offset := 0,
    editing_cell := none,
    edit_input := [],
    data_modified := false }

/-- `ensure_valid_col_selection` (ui.rs:628-639). -/
def ensure_valid_col_selection (st : AppState) : AppState :=
  match st.current_data with
  | some data =>
    let min_col := if data.columns ≠ [] ∧ data.columns.head? = some (str "rowid") then 1 else 0
    if st.selected_col_idx < min_col then { st with selected_col_idx := min_col } else st
  | none => st

/-- `apply_computed_columns` on the state (mutates `current_data` in place;
the partially mutated page survives an error). -/
def apply_computed_columns_st (st : AppState) : AppState × Option Str :=
  match st.current_data with
  | some data =>
    let r := applyCCListGo st.computed_columns data
    ({ st with current_data := some r.1 }, r.2)
  | none => (st, none)

/-- `refresh_computed_columns` on the state. -/
def refresh_computed_columns_st (st : AppState) : AppState × Option Str :=
  match st.current_data with
  | some data =>
    let r := refreshCCList st.computed_columns data
    ({ st with current_data := some r.1 }, r.2)
  | none => (st, none)

/-- `load_computed_columns` (ui.rs:670-692): a stale fingerprint clears the
cache; a load failure also yields the empty list. -/
def load_computed_columns_st (pers : PersistenceM) (table_name : Str) (st : AppState) : AppState :=
  if pers.should_recalculate then { st with computed_columns := [] }
  else
    match pers.load_computed_columns table_name with
    | Except.ok columns => { st with computed_columns := columns }
    | Except.error _ => { st with computed_columns := [] }

/-- The page fetch of `load_current_data`: the active custom query, scoped to
the table at the current offset/page size, or the plain table fetch. -/
def fetchPage (ds : DataSourceM) (st : AppState) (table_name : Str) : Except Str QueryResult :=
  match st.current_query with
  | some query => ds.execute_custom_query query table_name st.data_offset st.page_size
  | none => ds.get_table_data table_name st.data_offset st.page_size

/-- `load_current_data` (ui.rs:641-668): fetch the page (custom query or
table), store it, reload the computed-column cache, apply the computed
columns, fix the column selection.  A fetch error leaves the state untouched;
an application error keeps the partially mutated page. -/
def load_current_data (ds : DataSourceM) (pers : PersistenceM) (st : AppState) :
    AppState × Option Str :=
  match current_table st with
  | none => (st, none)
  | some table_name =>
    match fetchPage ds st table_name with
    | Except.error e => (st, some e)
    | Except.ok result =>
      let st1 := { st with original_data := some result, current_data := some result }
      let st2 := load_computed_columns_st pers table_name st1
      let r := apply_computed_columns_st st2
      match r.2 with
      | some e => (r.1, some e)
      | none => (ensure_valid_col_selection r.1, none)

/-- `handle_query_input` (ui.rs:140-190).  The `Bool` result is the
continue-running flag; `Except.error` is a propagated `Err`. -/
def handle_query_input (ds : DataSourceM) (key : KeyCode) (st : AppState) :
    AppState × Except Str Bool :=
  match key with
  | KeyCode.esc =>
    ({ st with navigation_mode := NavigationMode.Data, query_input := [] }, Except.ok true)
  | KeyCode.enter =>
    let st1 :=
      if trimStr st.query_input ≠ [] then
        match current_table st with
        | some table_name =>
          if ds.supports_custom_queries then
            match ds.execute_custom_query st.query_input table_name 0 st.page_size with
            | Except.ok result =>
              { st with
                current_query := some st.query_input,
                current_data := some result,
                selected_row_idx := 0,
                data_offset := 0,
                status_message := some (str "Query executed successfully") }
            | Except.error e => show_error st (str "Query error: " ++ e)
          else
            { st with
              status_message := some (str "Custom queries not supported for this file type") }
        | none => st
      else st
    ({ st1 with navigation_mode := NavigationMode.Data, query_input := [] }, Except.ok true)
  | KeyCode.backspace => ({ st with query_input := st.query_input.dropLast }, Except.ok true)
  | KeyCode.char c => ({ st with query_input := st.query_input ++ [c] }, Except.ok true)
  | _ => (st, Except.ok true)

/-- `save_changes` (ui.rs:721-774): all four source kinds export the page to
a timestamped CSV and clear the modified flag, with a kind-specific status. -/
def save_changes (ds : DataSourceM) (st : AppState) : AppState × Except Str Bool :=
  if ¬ st.data_modified then
    ({ st with status_message := some (str "No changes to save") }, Except.ok true)
  else
    match current_table st with
    | some table_name =>
      match st.current_data with
      | some data =>
        let filename := table_name ++ str "_edited_" ++ ds.timestamp ++ str ".csv"
        match ds.write_csv data filename with
        | Except.error e => (st, Except.error e)
        | Except.ok _ =>
          let msg :=
            match ds.kind with
            | SourceKind.Csv => str "Changes saved to " ++ filename
            | SourceKind.Xlsx => str "Changes saved to " ++ filename ++ str " (converted from Excel)"
            | SourceKind.Sqlite =>
              str "Changes exported to " ++ filename ++ str " (SQLite direct save not supported)"
            | SourceKind.Parquet =>
              str "Changes saved to " ++ filename ++ str " (converted from Parquet)"
          ({ st with data_modified := false, status_message := some msg }, Except.ok true)
      | none => (st, Except.ok true)
    | none => (st, Except.ok true)

/-- `export_to_csv` (ui.rs:701-719). -/
def export_to_csv (ds : DataSourceM) (st : AppState) : AppState × Except Str Bool :=
  match current_table st with
  | some table_name =>
    let filename :=
      match st.current_query with
      | some _ => str "query_export_" ++ ds.timestamp ++ str ".csv"
      | none => table_name ++ '_' :: ds.timestamp ++ str ".csv"
    let res :=
      match st.current_query with
      | some query => ds.export_query_to_csv query filename
      | none => ds.export_table_to_csv table_name filename
    match res with
    | Except.error e => (st, Except.error e)
    | Except.ok rows_exported =>
      ({ st with
          status_message :=
            some (str "Exported " ++ natToStr rows_exported ++ str " rows to " ++ filename) },
        Except.ok true)
  | none => (st, Except.ok true)

/-- `handle_data_navigation` (ui.rs:230-409). -/
def handle_data_navigation (ds : DataSourceM) (pers : PersistenceM) (key : KeyCode)
    (ctrl : Bool) (st : AppState) : AppState × Except Str Bool :=
  match key with
  | KeyCode.up =>
    if st.selected_row_idx > 0 then
      ({ st with selected_row_idx := st.selected_row_idx - 1 }, Except.ok true)
    else if st.data_offset > 0 then
      let st1 := { st with
        data_offset := st.data_offset - st.page_size,
        selected_row_idx := st.page_size - 1 }
      let r := load_current_data ds pers st1
      match r.2 with
      | some e => (r.1, Except.error e)
      | none =>
        let st2 := r.1
        let st3 :=
          match st2.current_data with
          | some data =>
            if st2.selected_row_idx ≥ data.rows.length then
              { st2 with selected_row_idx := data.rows.length - 1 }
            else st2
          | none => st2
        (st3, Except.ok true)
    else (st, Except.ok true)
  | KeyCode.down =>
    match st.current_data with
    | some data =>
      if st.selected_row_idx < data.rows.length - 1 then
        ({ st with selected_row_idx := st.selected_row_idx + 1 }, Except.ok true)
      else if st.data_offset + data.rows.length < data.total_rows then
        let st1 := { st with
          data_offset := st.data_offset + st.page_size,
          selected_row_idx := 0 }
        let r := load_current_data ds pers st1
        match r.2 with
        | some e => (r.1, Except.error e)
        | none => (r.1, Except.ok true)
      else (st, Except.ok true)
    | none => (st, Except.ok true)
  | KeyCode.left =>
    match st.current_data with
    | some data =>
      let min_col := if data.columns ≠ [] ∧ data.columns.head? = some (str "rowid") then 1 else 0
      if st.selected_col_idx > min_col then
        ({ st with selected_col_idx := st.selected_col_idx - 1 }, Except.ok true)
      else
        let st1 := reset_data_view { st with navigation_mode := NavigationMode.Table }
        let r := load_current_data ds pers st1
        match r.2 with
        | some e => (r.1, Except.error e)
        | none => (r.1, Except.ok true)
    | none =>
      let st1 := reset_data_view { st with navigation_mode := NavigationMode.Table }
      let r := load_current_data ds pers st1
      match r.2 with
      | some e => (r.1, Except.error e)
      | none => (r.1, Except.ok true)
  | KeyCode.right =>
    match st.current_data with
    | some data =>
      if st.selected_col_idx < data.columns.length - 1 then
        ({ st with selected_col_idx := st.selected_col_idx + 1 }, Except.ok true)
      else (st, Except.ok true)
    | none => (st, Except.ok true)
  | KeyCode.pageUp =>
    if st.data_offset > 0 then
      let st1 := { st with data_offset := st.data_offset - st.page_size, selected_row_idx := 0 }
      let r := load_current_data ds pers st1
      match r.2 with
      | some e => (r.1, Except.error e)
      | none => (r.1, Except.ok true)
    else (st, Except.ok true)
  | KeyCode.pageDown =>
    match st.current_data with
    | some data =>
      if st.data_offset + data.rows.length < data.total_rows then
        let st1 := { st with data_offset := st.data_offset + st.page_size, selected_row_idx := 0 }
        let r := load_current_data ds pers st1
        match r.2 with
        | some e => (r.1, Except.error e)
        | none => (r.1, Except.ok true)
      else (st, Except.ok true)
    | none => (st, Except.ok true)
  | KeyCode.home =>
    let st1 := { st with data_offset := 0, selected_row_idx := 0 }
    let r := load_current_data ds pers st1
    match r.2 with
    | some e => (r.1, Except.error e)
    | none => (r.1, Except.ok true)
  | KeyCode.endKey =>
    match st.current_data with
    | some data =>
      let st1 := { st with
        data_offset := data.total_rows - st.page_size,
        selected_row_idx := 0 }
      let r := load_current_data ds pers st1
      match r.2 with
      | some e => (r.1, Except.error e)
      | none => (r.1, Except.ok true)
    | none => (st, Except.ok true)
  | KeyCode.enter =>
    match st.current_data with
    | some data =>
      if st.selected_row_idx < data.rows.length then
        ({ st with
            detailed_view_row := some st.selected_row_idx,
            detailed_view_selected_field := 0,
            navigation_mode := NavigationMode.DetailedView }, Except.ok true)
      else (st, Except.ok true)
    | none => (st, Except.ok true)
  | KeyCode.char c =>
    if c = ' ' then
      match st.current_data with
      | some data =>
        if st.selected_row_idx < data.rows.length ∧ st.selected_col_idx < data.columns.length then
          if data.columns ≠ [] ∧ data.columns.head? = some (str "rowid") ∧
              st.selected_col_idx = 0 then
            (show_error st (str "Cannot edit rowid column"), Except.ok true)
          else
            ({ st with
                navigation_mode := NavigationMode.Edit,
                editing_cell := some (st.selected_row_idx, st.selected_col_idx),
                edit_input := (data.rows.getD st.selected_row_idx []).getD st.selected_col_idx [] },
              Except.ok true)
        else (st, Except.ok true)
      | none => (st, Except.ok true)
    else if c = 'n' then
      match st.current_data with
      | some data =>
        let new_row : List Str := data.columns.map (fun _ => [])
        let new_row :=
          if data.columns ≠ [] ∧ data.columns.head? = some (str "rowid") then new_row.set 0 []
          else new_row
        let data2 := { data with rows := data.rows ++ [new_row], total_rows := data.total_rows + 1 }
        ({ st with
            current_data := some data2,
            data_modified := true,
            selected_row_idx := data2.rows.length - 1,
            selected_col_idx :=
              if data.columns = [] ∨ data.columns.head? ≠ some (str "rowid") then 0 else 1,
            status_message := some (str "New row added") }, Except.ok true)
      | none => (st, Except.ok true)
    else if c = 'i' then
      ({ st with navigation_mode := NavigationMode.Query, query_input := [] }, Except.ok true)
    else if c = '=' then
      ({ st with navigation_mode := NavigationMode.ComputedColumn, computed_column_input := [] },
        Except.ok true)
    else if c = 'e' then
      export_to_csv ds st
    else if c = 's' then
      if st.current_query.isSome then
        (show_error st (str "Cannot save custom query results. Press " ++ [q1] ++ str "r" ++ [q1] ++
            str " to reload table data first."), Except.ok true)
      else save_changes ds st
    else if c = 'r' then
      let st1 := { st with current_query := none }
      let r := load_current_data ds pers st1
      match r.2 with
      | some e => (r.1, Except.error e)
      | none => (r.1, Except.ok true)
    else if (c = 'q' ∨ c = 'c') ∧ ctrl then
      (st, Except.ok false)
    else if c = 'h' then
      ({ st with show_help := ¬ st.show_help }, Except.ok true)
    else (st, Except.ok true)
  | _ => (st, Except.ok true)

/-- The shared tail of `save_current_edit_and_move_to`: set the cursor and
editing cell and reseed the edit buffer from the (possibly reloaded) page. -/
def finishMove (st : AppState) (new_row new_col : Nat) : AppState × Option Str :=
  let st1 := { st with
    selected_row_idx := new_row,
    selected_col_idx := new_col,
    editing_cell := some (new_row, new_col) }
  let st2 :=
    match st1.current_data with
    | some data =>
      if new_row < data.rows.length ∧ new_col < data.columns.length then
        { st1 with edit_input := (data.rows.getD new_row []).getD new_col [] }
      else st1
    | none => st1
  (st2, none)

/-- The commit step shared by the Enter/arrow/Tab paths of `handle_edit_mode`:
write the edit buffer into the in-range, non-rowid editing cell. -/
def commitEdit (st : AppState) : AppState :=
  match st.editing_cell with
  | some (row_idx, col_idx) =>
    match st.current_data with
    | some data =>
      if row_idx < data.rows.length ∧ col_idx < data.columns.length then
        if data.columns ≠ [] ∧ data.columns.head? = some (str "rowid") ∧ col_idx = 0 then st
        else
          { st with
            current_data := some { data with
              rows := data.rows.set row_idx ((data.rows.getD row_idx []).set col_idx st.edit_input) },
            data_modified := true }
      else st
    | none => st
  | none => st

/-- `save_current_edit_and_move_to` (ui.rs:535-614). -/
def save_current_edit_and_move_to (ds : DataSourceM) (pers : PersistenceM)
    (direction : MoveTo) (st0 : AppState) : AppState × Option Str :=
  let st := commitEdit st0
  match st.current_data with
  | none => (st, none)
  | some data =>
    match direction with
    | MoveTo.up =>
      if st.selected_row_idx > 0 then
        finishMove st (st.selected_row_idx - 1) st.selected_col_idx
      else if st.data_offset > 0 then
        let st1 := { st with data_offset := st.data_offset - st.page_size }
        let new_row := st.page_size - 1
        let r := load_current_data ds pers st1
        match r.2 with
        | some e => (r.1, some e)
        | none =>
          let st2 := r.1
          let new_row2 :=
            match st2.current_data with
            | some d2 => if new_row ≥ d2.rows.length then d2.rows.length - 1 else new_row
            | none => new_row
          finishMove st2 new_row2 st.selected_col_idx
      else finishMove st st.selected_row_idx st.selected_col_idx
    | MoveTo.down =>
      if st.selected_row_idx < data.rows.length - 1 then
        finishMove st (st.selected_row_idx + 1) st.selected_col_idx
      else if st.data_offset + data.rows.length < data.total_rows then
        let st1 := { st with data_offset := st.data_offset + st.page_size }
        let r := load_current_data ds pers st1
        match r.2 with
        | some e => (r.1, some e)
        | none => finishMove r.1 0 st.selected_col_idx
      else finishMove st st.selected_row_idx st.selected_col_idx
    | MoveTo.left =>
      let min_col := if data.columns ≠ [] ∧ data.columns.head? = some (str "rowid") then 1 else 0
      if st.selected_col_idx > min_col then
        finishMove st st.selected_row_idx (st.selected_col_idx - 1)
      else finishMove st st.selected_row_idx st.selected_col_idx
    | MoveTo.right =>
      if st.selected_col_idx < data.columns.length - 1 then
        finishMove st st.selected_row_idx (st.selected_col_idx + 1)
      else finishMove st st.selected_row_idx st.selected_col_idx

/-- `handle_edit_mode` (ui.rs:411-533). -/
def handle_edit_mode (ds : DataSourceM) (pers : PersistenceM) (key : KeyCode)
    (ctrl : Bool) (st : AppState) : AppState × Except Str Bool :=
  match key with
  | KeyCode.esc =>
    ({ st with navigation_mode := NavigationMode.Data, editing_cell := none, edit_input := [] },
      Except.ok true)
  | KeyCode.enter =>
    let st1 :=
      match st.editing_cell with
      | some (row_idx, col_idx) =>
        match st.current_data with
        | some data =>
          if row_idx < data.rows.length ∧ col_idx < data.columns.length then
            if data.columns ≠ [] ∧ data.columns.head? = some (str "rowid") ∧ col_idx = 0 then
              show_error st (str "Cannot edit rowid column")
            else
              { st with
                current_data := some { data with
                  rows := data.rows.set row_idx
                    ((data.rows.getD row_idx []).set col_idx st.edit_input) },
                data_modified := true,
                status_message := some (str "Cell updated (not saved)") }
          else st
        | none => st
      | none => st
    let st2 := { st1 with
      navigation_mode := NavigationMode.Data, editing_cell := none, edit_input := [] }
    let r := refresh_computed_columns_st st2
    match r.2 with
    | some e =>
      (show_error r.1 (str "Failed to update computed columns: " ++ e), Except.ok true)
    | none => (r.1, Except.ok true)
  | KeyCode.up =>
    let r := save_current_edit_and_move_to ds pers MoveTo.up st
    match r.2 with
    | some e => (r.1, Except.error e)
    | none => (r.1, Except.ok true)
  | KeyCode.down =>
    let r := save_current_edit_and_move_to ds pers MoveTo.down st
    match r.2 with
    | some e => (r.1, Except.error e)
    | none => (r.1, Except.ok true)
  | KeyCode.left =>
    let r := save_current_edit_and_move_to ds pers MoveTo.left st
    match r.2 with
    | some e => (r.1, Except.error e)
    | none => (r.1, Except.ok true)
  | KeyCode.right =>
    let r := save_current_edit_and_move_to ds pers MoveTo.right st
    match r.2 with
    | some e => (r.1, Except.error e)
    | none => (r.1, Except.ok true)
  | KeyCode.backspace =>
    ({ st with edit_input := st.edit_input.dropLast }, Except.ok true)
  | KeyCode.tab =>
    match st.editing_cell with
    | some (row_idx, col_idx) =>
      match st.current_data with
      | some data =>
        if row_idx < data.rows.length ∧ col_idx < data.columns.length then
          let st1 :=
            if data.columns ≠ [] ∧ data.columns.head? = some (str "rowid") ∧ col_idx = 0 then st
            else
              { st with
                current_data := some { data with
                  rows := data.rows.set row_idx
                    ((data.rows.getD row_idx []).set col_idx st.edit_input) },
                data_modified := true }
          let data1 := st1.current_data.getD data
          if col_idx < data.columns.length - 1 then
            ({ st1 with
                selected_col_idx := st1.selected_col_idx + 1,
                editing_cell := some (row_idx, col_idx + 1),
                edit_input := (data1.rows.getD row_idx []).getD (col_idx + 1) [] },
              Except.ok true)
          else if row_idx < data.rows.length - 1 then
            let min_col :=
              if data.columns ≠ [] ∧ data.columns.head? = some (str "rowid") then 1 else 0
            ({ st1 with
                selected_row_idx := st1.selected_row_idx + 1,
                selected_col_idx := min_col,
                editing_cell := some (row_idx + 1, min_col),
                edit_input := (data1.rows.getD (row_idx + 1) []).getD min_col [] },
              Except.ok true)
          else
            ({ st1 with
                navigation_mode := NavigationMode.Data, editing_cell := none, edit_input := [] },
              Except.ok true)
        else (st, Except.ok true)
      | none => (st, Except.ok true)
    | none => (st, Except.ok true)
  | KeyCode.char c =>
    if c = 'n' ∧ ctrl then
      match st.current_data with
      | some data =>
        let new_row : List Str := data.columns.map (fun _ => [])
        let new_row :=
          if data.columns ≠ [] ∧ data.columns.head? = some (str "rowid") then new_row.set 0 []
          else new_row
        let data2 := { data with rows := data.rows ++ [new_row], total_rows := data.total_rows + 1 }
        let sel_col :=
          if data.columns = [] ∨ data.columns.head? ≠ some (str "rowid") then 0 else 1
        ({ st with
            current_data := some data2,
            data_modified := true,
            selected_row_idx := data2.rows.length - 1,
            selected_col_idx := sel_col,
            editing_cell := some (data2.rows.length - 1, sel_col),
            edit_input := [],
            status_message := some (str "New row added") }, Except.ok true)
      | none => (st, Except.ok true)
    else ({ st with edit_input := st.edit_input ++ [c] }, Except.ok true)
  | _ => (st, Except.ok true)

/-! ## The computed-column store fingerprint (src/persistence.rs) -/

/-- The file metadata the fingerprint reads: size and modification time
(seconds since the epoch). -/
structure FileMeta where
  size : Nat
  mtime : Nat
deriving DecidableEq

/-- `calculate_file_hash` (persistence.rs:167-188):
`format!("{}_{}", metadata.len(), mtime_secs)`. -/
def calculate_file_hash (m : FileMeta) : Str :=
  natToStr m.size ++ '_' :: natToStr m.mtime

/-- The stored per-file record (persistence.rs `FileComputedColumns`). -/
structure FileComputedColumns where
  file_path : Str
  file_hash : Str
  last_modified : Nat
  computed_columns : List (Str × List ComputedColumn)
deriving DecidableEq

/-- `should_recalculate` (persistence.rs:131-141).  `stored = none` models a
failing `load_file_data` (no saved record); `live = none` models a failing
`calculate_file_hash` (missing file or unreadable metadata). -/
def should_recalculate (stored : Option FileComputedColumns) (live : Option FileMeta) : Bool :=
  match stored with
  | none => false
  | some file_data =>
    match live with
    | none => true
    | some m => decide (calculate_file_hash m ≠ file_data.file_hash)

/-! ## Derived notions used by the statements -/

deriving instance DecidableEq for Except

/-- The data-model invariant of the spec: every row has as many cells as
there are columns. -/
def RowLenInv (d : QueryResult) : Prop :=
  ∀ row ∈ d.rows, row.length = d.columns.length

instance (d : QueryResult) : Decidable (RowLenInv d) := by
  unfold RowLenInv; infer_instance

/-- The effect of one computed column on the column list: remove the first
same-named column, append the name. -/
def colStep (cols : List Str) (name : Str) : List Str := cols.erase name ++ [name]

/-- The column-list evolution of a whole computed-column pass. -/
def colStepFold (cols : List Str) (names : List Str) : List Str := names.foldl colStep cols

/-- Erase each of `names` (first occurrence) in turn. -/
def eraseAllL (cols : List Str) (names : List Str) : List Str :=
  names.foldl (fun cs n => cs.erase n) cols

/-! ## Concrete fixtures for the witnesses and counterexamples -/

/-- An oracle data source: custom queries are supported but fail, plain
fetches return a fixed one-row page. -/
def exDS : DataSourceM where
  supports_custom_queries := true
  execute_custom_query := fun _ _ _ _ => Except.error (str "boom")
  get_table_data := fun _ _ _ => Except.ok ⟨[str "A"], [[str "1"]], 1⟩
  export_table_to_csv := fun _ _ => Except.ok 0
  export_query_to_csv := fun _ _ => Except.ok 0
  write_csv := fun _ _ => Except.ok ()
  kind := SourceKind.Sqlite
  timestamp := str "20260101_000000"

/-- An oracle store with nothing persisted and a fresh fingerprint. -/
def exPers : PersistenceM where
  should_recalculate := false
  load_computed_columns := fun _ => Except.error (str "No saved computed columns for this file")

/-- A baseline application state over one table. -/
def exState : AppState where
  tables := [str "t"]
  selected_table_idx := 0
  selected_row_idx := 0
  selected_col_idx := 0
  navigation_mode := NavigationMode.Data
  current_query := none
  query_input := []
  data_offset := 0
  page_size := 25
  current_data := none
  original_data := none
  status_message := none
  show_help := false
  edit_input := []
  editing_cell := none
  data_modified := false
  detailed_view_row := none
  detailed_view_selected_field := 0
  error_message := none
  previous_navigation_mode := NavigationMode.Data
  computed_columns := []
  computed_column_input := []

/-- Query mode with a non-blank buffer (the query will fail on `exDS`). -/
def stQueryFail : AppState :=
  { exState with navigation_mode := NavigationMode.Query, query_input := str "SELECT broken" }

/-- Edit mode on cell (0,0) of a page that also carries the computed column
`double = A*2` (value 2·1 = 2 in the loaded page). -/
def stEditDouble : AppState :=
  { exState with
    navigation_mode := NavigationMode.Edit,
    editing_cell := some (0, 0),
    edit_input := str "3",
    current_data := some ⟨[str "A", str "double"], [[str "1", str "2"]], 1⟩,
    computed_columns := [⟨str "double", str "A*2", ComputedColumnType.RowOperation [str "A"]⟩] }

/-- Data mode on the last row of a one-row page of a three-row table. -/
def stDownMore : AppState :=
  { exState with current_data := some ⟨[str "A"], [[str "1"]], 3⟩ }

/-- Data mode on the last row of a fully loaded one-row table. -/
def stDownEnd : AppState :=
  { exState with current_data := some ⟨[str "A"], [[str "7"]], 1⟩ }

/-- A page whose computed column references a missing column `B`. -/
def dBadAgg : QueryResult := ⟨[str "A"], [[str "1"]], 1⟩

/-- `S = sum(B)` where `B` does not exist. -/
def ccBadAgg : ComputedColumn := ⟨str "S", str "sum(B)", ComputedColumnType.Aggregate (str "sum")⟩

/-- A two-row page with one source column `A`. -/
def dShadow : QueryResult := ⟨[str "A"], [[str "1"], [str "2"]], 2⟩

/-- `S = sum(A)` followed by a computed column named `A` (shadowing the
source column) with constant value 10. -/
def ccsShadow : List ComputedColumn :=
  [⟨str "S", str "sum(A)", ComputedColumnType.Aggregate (str "sum")⟩,
   ⟨str "A", str "10", ComputedColumnType.RowOperation []⟩]

/-- The fingerprint of the original file at the last save. -/
def exMetaOld : FileMeta := ⟨10, 100⟩

/-- The fingerprint after the file changed (same size, newer mtime). -/
def exMetaNew : FileMeta := ⟨10, 101⟩

/-- The record persisted at the last save. -/
def exStored : FileComputedColumns := ⟨str "f.csv", calculate_file_hash exMetaOld, 100, []⟩

/-- Edit mode on cell (0,0) of a plain two-column page, no computed
columns. -/
def stEditPlain : AppState :=
  { exState with
    navigation_mode := NavigationMode.Edit,
    editing_cell := some (0, 0),
    edit_input := str "9",
    current_data := some ⟨[str "A", str "B"], [[str "1", str "2"]], 1⟩ }

/-! # Theorems -/

/-! ## C1 — operator precedence of `evaluate_expression_static` -/

/-- C1: `evaluate_expression_static` splits at the rightmost `*`/`/` BEFORE
`+`/`-`, which makes the additive operators bind tighter; `"2+3*4"` therefore
evaluates to `(2+3)*4 = 20`, not the `14` the spec's precedence rule
requires.  `"(2+3)*4"` gives `20` as specified.  This contradicts the
source's own comments ("with proper operator precedence",
"multiplication/division (higher precedence)"). -/
theorem c1_evaluator_precedence_observed :
    evaluate_expression_static (str "2+3*4") = Except.ok (str "20") ∧
    evaluate_expression_static (str "(2+3)*4") = Except.ok (str "20") :=
  ⟨by decide, by decide⟩

/-! ## C4 — mixed operations substitute page-level aggregate scalars first -/

/-- C4: mixed-operation evaluation factors as the aggregate-substitution pass
(`substAggregates`, computed once from the whole page's rows — it takes no
row) followed by exactly the per-row pipeline of
`compute_row_operation_static`; and on the page with `Age = [10, 20, 30]`,
the expression `Age - mean(Age)` computes `"-10"` for the first row. -/
theorem c4_mixed_operation_aggregates_once :
    (∀ (data : QueryResult) (row : List Str) (expression : Str)
        (columns_used aggregate_expressions : List Str),
      compute_mixed_operation_static data row expression columns_used aggregate_expressions =
        (substAggregates data aggregate_expressions expression).bind
          (fun expr1 => compute_row_operation_static data row expr1 columns_used)) ∧
    compute_mixed_operation_static ⟨[str "Age"], [[str "10"], [str "20"], [str "30"]], 3⟩
        [str "10"] (str "Age - mean(Age)") [str "Age"] [str "mean(Age)"] =
      Except.ok (str "-10") := by
  constructor
  · intro data row e cols aggs
    cases h : substAggregates data aggs e <;>
      simp [compute_mixed_operation_static, compute_row_operation_static, h, Except.bind]
  · decide

/-! ## C8 — aggregates parse cells, skip the unparsable, default to "0" -/

/-- C8: `sum` over cells `[1, 2, "x", 4]` returns `"7"`; whenever the target
column resolves and no cell of it parses, the result is `"0"` (for every
function name, parsable or not — the guard precedes the dispatch); and the
result is insensitive to inserting a row whose target cell does not parse,
i.e. the aggregate is computed from the parsed values only. -/
theorem c8_aggregate_skips_unparsable :
    compute_aggregate_static ⟨[str "v"], [[str "1"], [str "2"], [str "x"], [str "4"]], 4⟩
        (str "sum") (str "sum(v)") = Except.ok (str "7") ∧
    (∀ (data : QueryResult) (func expression : Str) (i : Nat),
      data.columns.findIdx? (fun col => col = aggColumnName func expression) = some i →
      (∀ row ∈ data.rows, parsedCell row i = none) →
      compute_aggregate_static data func expression = Except.ok (str "0")) ∧
    (∀ (cols : List Str) (t₁ t₂ : Nat) (pre post : List (List Str)) (bad : List Str)
        (func expression : Str) (i : Nat),
      cols.findIdx? (fun col => col = aggColumnName func expression) = some i →
      parsedCell bad i = none →
      compute_aggregate_static ⟨cols, pre ++ bad :: post, t₁⟩ func expression =
        compute_aggregate_static ⟨cols, pre ++ post, t₂⟩ func expression) := by
  refine ⟨by decide, ?_, ?_⟩
  · intro data func e i hfind hnone
    have hvals : data.rows.filterMap (fun row => parsedCell row i) = [] := by
      simp only [List.filterMap_eq_nil_iff]
      exact hnone
    simp [compute_aggregate_static, hfind, hvals]
  · intro cols t₁ t₂ pre post bad func e i hfind hbad
    simp only [compute_aggregate_static, hfind]
    simp [List.filterMap_append, List.filterMap_cons, hbad]

/-- C8 witness: the `"0"` case at a concrete unparsable page, and the
insensitivity instance at a concrete page. -/
theorem c8_witness :
    compute_aggregate_static ⟨[str "v"], [[str "x"], [str "y"]], 2⟩ (str "max") (str "max(v)") =
      Except.ok (str "0") ∧
    compute_aggregate_static ⟨[str "v"], [[str "1"], [str "x"], [str "4"]], 3⟩
        (str "mean") (str "mean(v)") =
      compute_aggregate_static ⟨[str "v"], [[str "1"], [str "4"]], 2⟩ (str "mean") (str "mean(v)") :=
  ⟨c8_aggregate_skips_unparsable.2.1 ⟨[str "v"], [[str "x"], [str "y"]], 2⟩
      (str "max") (str "max(v)") 0 (by decide) (by decide),
   c8_aggregate_skips_unparsable.2.2 [str "v"] 3 2 [[str "1"]] [[str "4"]] [str "x"]
      (str "mean") (str "mean(v)") 0 (by decide) (by decide)⟩

/-! ## C9 — the fingerprint comparison of `should_recalculate` -/

theorem decParse_snoc (xs : Str) (c : Char) :
    decParse (xs ++ [c]) = decParse xs * 10 + (c.toNat - 48) := by
  simp [decParse, List.foldl_append]

theorem digitChar_toNat_eq {d : Nat} (h : d < 10) : (Nat.digitChar d).toNat = 48 + d := by
  interval_cases d <;> rfl

theorem digitChar_ne_underscore {d : Nat} (h : d < 10) : Nat.digitChar d ≠ '_' := by
  interval_cases d <;> decide

theorem natToStrGo_decParse : ∀ fuel n, n < fuel → decParse (natToStrGo fuel n) = n := by
  intro fuel
  induction fuel with
  | zero => omega
  | succ fuel ih =>
    intro n hn
    unfold natToStrGo
    by_cases h : n < 10
    · simp only [h, if_true, decParse, List.foldl_cons, List.foldl_nil,
        digitChar_toNat_eq h]
      omega
    · have hdiv : n / 10 < n := Nat.div_lt_self (by omega) (by omega)
      have hmod : n % 10 < 10 := Nat.mod_lt _ (by omega)
      have hdm := Nat.div_add_mod n 10
      simp only [h, if_false]
      rw [decParse_snoc, ih (n / 10) (by omega), digitChar_toNat_eq hmod]
      omega

/-- `natToStr` is injective (via its left inverse `decParse`). -/
theorem natToStr_injective {a b : Nat} (h : natToStr a = natToStr b) : a = b := by
  have ha := natToStrGo_decParse (a + 1) a (by omega)
  have hb := natToStrGo_decParse (b + 1) b (by omega)
  unfold natToStr at h
  rw [h] at ha
  omega

theorem underscore_not_mem_natToStrGo : ∀ fuel n, '_' ∉ natToStrGo fuel n := by
  intro fuel
  induction fuel with
  | zero => intro n; simp [natToStrGo]
  | succ fuel ih =>
    intro n
    unfold natToStrGo
    by_cases h : n < 10
    · simp only [h, if_true, List.mem_singleton]
      exact fun hc => digitChar_ne_underscore h hc.symm
    · simp only [h, if_false, List.mem_append, List.mem_singleton]
      rintro (hc | hc)
      · exact ih (n / 10) hc
      · exact digitChar_ne_underscore (Nat.mod_lt _ (by omega)) hc.symm

theorem underscore_not_mem_natToStr (n : Nat) : '_' ∉ natToStr n :=
  underscore_not_mem_natToStrGo (n + 1) n

theorem append_underscore_inj : ∀ (a c b d : Str), '_' ∉ a → '_' ∉ c →
    a ++ '_' :: b = c ++ '_' :: d → a = c ∧ b = d := by
  intro a
  induction a with
  | nil =>
    intro c b d _ hc h
    cases c with
    | nil => simpa using h
    | cons y ys =>
      exfalso
      simp only [List.nil_append, List.cons_append, List.cons.injEq] at h
      exact hc (h.1 ▸ List.mem_cons_self _ _)
  | cons x xs ih =>
    intro c b d ha hc h
    cases c with
    | nil =>
      exfalso
      simp only [List.cons_append, List.nil_append, List.cons.injEq] at h
      exact ha (h.1 ▸ List.mem_cons_self _ _)
    | cons y ys =>
      simp only [List.cons_append, List.cons.injEq] at h
      obtain ⟨hxy, hrest⟩ := h
      have := ih ys b d (fun hm => ha (List.mem_cons_of_mem _ hm))
        (fun hm => hc (List.mem_cons_of_mem _ hm)) hrest
      exact ⟨by rw [hxy, this.1], this.2⟩

/-- The size/mtime fingerprint string determines the pair. -/
theorem calculate_file_hash_injective {m1 m2 : FileMeta}
    (h : calculate_file_hash m1 = calculate_file_hash m2) : m1 = m2 := by
  unfold calculate_file_hash at h
  obtain ⟨h1, h2⟩ := append_underscore_inj _ _ _ _
    (underscore_not_mem_natToStr m1.size) (underscore_not_mem_natToStr m2.size) h
  cases m1; cases m2
  simp only at h1 h2
  simp only [FileMeta.mk.injEq]
  exact ⟨natToStr_injective h1, natToStr_injective h2⟩

/-- C9: for a file whose computed-column record was saved with the
fingerprint of `saved` and whose metadata is readable (`live`),
`should_recalculate` returns true exactly when the live fingerprint — size
and modification time — differs from the saved one; in particular it returns
false on the unchanged file. -/
theorem c9_should_recalculate_iff (saved live : FileMeta) (stored : FileComputedColumns)
    (hh : stored.file_hash = calculate_file_hash saved) :
    (should_recalculate (some stored) (some live) = true ↔ live ≠ saved) ∧
    should_recalculate (some stored) (some saved) = false := by
  constructor
  · simp only [should_recalculate, hh, decide_eq_true_eq]
    constructor
    · intro hne heq
      exact hne (heq ▸ rfl)
    · intro hne heq
      exact hne (calculate_file_hash_injective heq)
  · simp [should_recalculate, hh]

/-- C9 witness: with the stored record of `exMetaOld`, a changed mtime
recalculates, the unchanged file does not. -/
theorem c9_witness :
    should_recalculate (some exStored) (some exMetaNew) = true ∧
    should_recalculate (some exStored) (some exMetaOld) = false :=
  ⟨(c9_should_recalculate_iff exMetaOld exMetaNew exStored rfl).1.mpr (by decide),
   (c9_should_recalculate_iff exMetaOld exMetaOld exStored rfl).2⟩

/-! ## C2 — failing query: error recorded, but the mode ends in Data -/

/-- C2 counterexample: on `stQueryFail` (Query mode, non-blank buffer,
supported queries, failing execution) the handler records the error and
clears the buffer, but its final mode is `Data`, NOT `ErrorDisplay` — the
`show_error` transition is overwritten by the unconditional return to Data
(ui.rs:178), so the claim's "opens ErrorDisplay" is false of the post-state. -/
theorem c2_counterexample :
    (handle_query_input exDS KeyCode.enter stQueryFail).1.navigation_mode =
        NavigationMode.Data ∧
    (handle_query_input exDS KeyCode.enter stQueryFail).1.navigation_mode ≠
        NavigationMode.ErrorDisplay ∧
    (handle_query_input exDS KeyCode.enter stQueryFail).1.error_message =
        some (str "Query error: boom") ∧
    (handle_query_input exDS KeyCode.enter stQueryFail).1.query_input = [] := by
  refine ⟨by decide, by decide, by decide, by decide⟩

/-- C2 (amended): when Enter is pressed in Query mode with a non-blank buffer
on a source that supports custom queries and the query fails, the handler
records the error message (prefixed `Query error: `), remembers `Query` as
the prior mode, clears the buffer, and leaves the page and active query
untouched — but ends in `Data` mode rather than `ErrorDisplay`. -/
theorem c2_query_error_records_amended (ds : DataSourceM) (st : AppState) (tbl e : Str)
    (hmode : st.navigation_mode = NavigationMode.Query)
    (hne : trimStr st.query_input ≠ [])
    (htab : current_table st = some tbl)
    (hsup : ds.supports_custom_queries = true)
    (hfail : ds.execute_custom_query st.query_input tbl 0 st.page_size = Except.error e) :
    (handle_query_input ds KeyCode.enter st).1.error_message =
        some (str "Query error: " ++ e) ∧
    (handle_query_input ds KeyCode.enter st).1.previous_navigation_mode =
        NavigationMode.Query ∧
    (handle_query_input ds KeyCode.enter st).1.navigation_mode = NavigationMode.Data ∧
    (handle_query_input ds KeyCode.enter st).1.query_input = [] ∧
    (handle_query_input ds KeyCode.enter st).1.current_data = st.current_data ∧
    (handle_query_input ds KeyCode.enter st).1.current_query = st.current_query := by
  simp only [handle_query_input, if_pos hne, htab, hsup, if_true, hfail, show_error, hmode]
  simp

/-- C2 witness: the amended claim at the concrete failing query. -/
theorem c2_witness :
    (handle_query_input exDS KeyCode.enter stQueryFail).1.error_message =
        some (str "Query error: " ++ str "boom") ∧
    (handle_query_input exDS KeyCode.enter stQueryFail).1.previous_navigation_mode =
        NavigationMode.Query ∧
    (handle_query_input exDS KeyCode.enter stQueryFail).1.navigation_mode =
        NavigationMode.Data ∧
    (handle_query_input exDS KeyCode.enter stQueryFail).1.query_input = [] ∧
    (handle_query_input exDS KeyCode.enter stQueryFail).1.current_data =
        stQueryFail.current_data ∧
    (handle_query_input exDS KeyCode.enter stQueryFail).1.current_query =
        stQueryFail.current_query :=
  c2_query_error_records_amended exDS stQueryFail (str "t") (str "boom")
    rfl (by decide) rfl rfl rfl

/-! ## C6 — Down at the last row pages forward by exactly `page_size` -/

/-- `load_current_data` never moves the pagination offset, the row cursor or
the page size (it touches the page, the computed-column cache and the column
cursor only). -/
theorem load_current_data_frame (ds : DataSourceM) (pers : PersistenceM) (st : AppState) :
    (load_current_data ds pers st).1.data_offset = st.data_offset ∧
    (load_current_data ds pers st).1.selected_row_idx = st.selected_row_idx ∧
    (load_current_data ds pers st).1.page_size = st.page_size := by
  unfold load_current_data
  split
  · exact ⟨rfl, rfl, rfl⟩
  · rename_i tbl htab
    cases hf : fetchPage ds st tbl with
    | error e => simp [hf]
    | ok result =>
      unfold load_computed_columns_st apply_computed_columns_st ensure_valid_col_selection
      dsimp only
      repeat' split
      all_goals simp

/-- C6: with a loaded nonempty page and the cursor on its last row, Down
advances `data_offset` by exactly `page_size` with the row cursor reset and
the state reloaded at the new offset when `data_offset + rows.len() <
total_rows`; otherwise the state (cursor and offset included) is unchanged. -/
theorem c6_down_paging (ds : DataSourceM) (pers : PersistenceM) (ctrl : Bool)
    (st : AppState) (data : QueryResult)
    (hdata : st.current_data = some data) (hne : data.rows ≠ [])
    (hlast : st.selected_row_idx = data.rows.length - 1) :
    (st.data_offset + data.rows.length < data.total_rows →
      (handle_data_navigation ds pers KeyCode.down ctrl st).1 =
        (load_current_data ds pers
          { st with data_offset := st.data_offset + st.page_size,
                    selected_row_idx := 0 }).1 ∧
      (handle_data_navigation ds pers KeyCode.down ctrl st).1.data_offset =
        st.data_offset + st.page_size ∧
      (handle_data_navigation ds pers KeyCode.down ctrl st).1.selected_row_idx = 0) ∧
    (¬ st.data_offset + data.rows.length < data.total_rows →
      handle_data_navigation ds pers KeyCode.down ctrl st = (st, Except.ok true)) := by
  have hnotlt : ¬ st.selected_row_idx < data.rows.length - 1 := by omega
  constructor
  · intro hadv
    have hfst :
        (handle_data_navigation ds pers KeyCode.down ctrl st).1 =
          (load_current_data ds pers
            { st with data_offset := st.data_offset + st.page_size,
                      selected_row_idx := 0 }).1 := by
      simp only [handle_data_navigation, hdata, if_neg hnotlt, if_pos hadv]
      split <;> rfl
    refine ⟨hfst, ?_, ?_⟩
    · rw [hfst, (load_current_data_frame ds pers _).1]
    · rw [hfst, (load_current_data_frame ds pers _).2.1]
  · intro hstay
    simp only [handle_data_navigation, hdata, if_neg hnotlt, if_neg hstay]

/-- C6 witness: both branches at concrete states (a further page exists for
`stDownMore`, none for `stDownEnd`). -/
theorem c6_witness :
    (handle_data_navigation exDS exPers KeyCode.down false stDownMore).1.data_offset = 25 ∧
    (handle_data_navigation exDS exPers KeyCode.down false stDownMore).1.selected_row_idx = 0 ∧
    handle_data_navigation exDS exPers KeyCode.down false stDownEnd =
      (stDownEnd, Except.ok true) :=
  ⟨((c6_down_paging exDS exPers false stDownMore ⟨[str "A"], [[str "1"]], 3⟩
        rfl (by decide) rfl).1 (by decide)).2.1,
   ((c6_down_paging exDS exPers false stDownMore ⟨[str "A"], [[str "1"]], 3⟩
        rfl (by decide) rfl).1 (by decide)).2.2,
   (c6_down_paging exDS exPers false stDownEnd ⟨[str "A"], [[str "7"]], 1⟩
        rfl (by decide) rfl).2 (by decide)⟩

/-! ## C5 — committing an edit writes one cell (and recomputes computed columns) -/

/-- Refreshing an empty computed-column list is the identity. -/
theorem refreshCCList_nil (d : QueryResult) : refreshCCList [] d = (d, none) := rfl

/-- Reading back the cell just set. -/
theorem getD_set_self {α : Type} (l : List α) (i : Nat) (h : i < l.length) (a d : α) :
    (l.set i a).getD i d = a := by
  rw [List.getD_eq_getElem?_getD, List.getElem?_set_eq_of_lt a h, Option.getD_some]

/-- Reading any other cell after a set. -/
theorem getD_set_ne {α : Type} (l : List α) {i j : Nat} (h : i ≠ j) (a d : α) :
    (l.set i a).getD j d = l.getD j d := by
  rw [List.getD_eq_getElem?_getD, List.getElem?_set_ne h, ← List.getD_eq_getElem?_getD]

/-- C5 counterexample: on `stEditDouble` (page `A=1, double=2` with the
computed column `double = A*2`), committing the edit `A := 3` at cell (0,0)
also changes cell (0,1) from `"2"` to `"6"` — the computed column is
refreshed — so "no other cell changed" is false as soon as a computed column
exists. -/
theorem c5_counterexample :
    (handle_edit_mode exDS exPers KeyCode.enter false stEditDouble).1.current_data =
      some ⟨[str "A", str "double"], [[str "3", str "6"]], 1⟩ ∧
    ((⟨[str "A", str "double"], [[str "3", str "6"]], 1⟩ : QueryResult).rows.getD 0 []).getD 1 []
      ≠ ((⟨[str "A", str "double"], [[str "1", str "2"]], 1⟩ : QueryResult).rows.getD 0 []).getD 1 [] :=
  ⟨by decide, by decide⟩

/-- C5 (amended): with no computed columns defined, committing an in-range
non-rowid edit with Enter replaces exactly cell (r, c) of the page with the
edit-buffer text: the new page is the old one with that single cell set,
reading (r, c) back yields the buffer, and every other cell is unchanged.
(With computed columns present, their cells are additionally recomputed —
see the counterexample.) -/
theorem c5_edit_commit_frame (ds : DataSourceM) (pers : PersistenceM) (ctrl : Bool)
    (st : AppState) (data : QueryResult) (r c : Nat)
    (hdata : st.current_data = some data)
    (hcell : st.editing_cell = some (r, c))
    (hr : r < data.rows.length) (hc : c < data.columns.length)
    (hrowid : ¬ (data.columns ≠ [] ∧ data.columns.head? = some (str "rowid") ∧ c = 0))
    (hinv : RowLenInv data)
    (hccs : st.computed_columns = []) :
    (handle_edit_mode ds pers KeyCode.enter ctrl st).1.current_data =
      some { data with rows := data.rows.set r ((data.rows.getD r []).set c st.edit_input) } ∧
    ((data.rows.set r ((data.rows.getD r []).set c st.edit_input)).getD r []).getD c []
      = st.edit_input ∧
    (∀ i j, ¬ (i = r ∧ j = c) →
      ((data.rows.set r ((data.rows.getD r []).set c st.edit_input)).getD i []).getD j []
        = (data.rows.getD i []).getD j []) := by
  have hmem : data.rows.getD r [] ∈ data.rows := by
    rw [List.getD_eq_getElem?_getD, List.getElem?_eq_getElem hr, Option.getD_some]
    exact List.getElem_mem hr
  have hrowlen : c < (data.rows.getD r []).length := by
    rw [hinv _ hmem]; exact hc
  refine ⟨?_, ?_, ?_⟩
  · simp only [handle_edit_mode, hcell, hdata]
    rw [if_pos (And.intro hr hc), if_neg hrowid]
    simp only [refresh_computed_columns_st, hccs, refreshCCList_nil]
  · rw [getD_set_self _ _ hr, getD_set_self _ _ hrowlen]
  · intro i j hij
    rcases eq_or_ne i r with hi | hi
    · subst hi
      have hj : c ≠ j := fun h => hij ⟨rfl, h.symm⟩
      rw [getD_set_self _ _ hr, getD_set_ne _ hj]
    · have hir : r ≠ i := fun h => hi h.symm
      rw [getD_set_ne _ hir]

/-- C5 witness: the amended claim at a concrete plain page. -/
theorem c5_witness :
    (handle_edit_mode exDS exPers KeyCode.enter false stEditPlain).1.current_data =
      some { (⟨[str "A", str "B"], [[str "1", str "2"]], 1⟩ : QueryResult) with
        rows := ((⟨[str "A", str "B"], [[str "1", str "2"]], 1⟩ : QueryResult)).rows.set 0
          ((((⟨[str "A", str "B"], [[str "1", str "2"]], 1⟩ : QueryResult)).rows.getD 0 []).set 0
            stEditPlain.edit_input) } ∧
    ((((⟨[str "A", str "B"], [[str "1", str "2"]], 1⟩ : QueryResult)).rows.set 0
        ((((⟨[str "A", str "B"], [[str "1", str "2"]], 1⟩ : QueryResult)).rows.getD 0 []).set 0
          stEditPlain.edit_input)).getD 0 []).getD 0 [] = stEditPlain.edit_input ∧
    (∀ i j, ¬ (i = 0 ∧ j = 0) →
      ((((⟨[str "A", str "B"], [[str "1", str "2"]], 1⟩ : QueryResult)).rows.set 0
          ((((⟨[str "A", str "B"], [[str "1", str "2"]], 1⟩ : QueryResult)).rows.getD 0 []).set 0
            stEditPlain.edit_input)).getD i []).getD j []
        = ((((⟨[str "A", str "B"], [[str "1", str "2"]], 1⟩ : QueryResult)).rows.getD i []).getD j [])) :=
  c5_edit_commit_frame exDS exPers false stEditPlain
    ⟨[str "A", str "B"], [[str "1", str "2"]], 1⟩ 0 0
    rfl rfl (by decide) (by decide) (by decide) (by decide) rfl

/-! ## C7 — rejecting definitions that reference nonexistent columns -/

/-- C7 counterexample: the bare-name definition `Bogus` (no operator, not a
number, not an aggregate) references the nonexistent column `Bogus` directly,
and it is rejected — but with the generic invalid-format error, which does
not name the column. -/
theorem c7_counterexample :
    parse_and_add_computed_column (some ⟨[str "A"], [[str "1"]], 1⟩) [] (str "Bogus") =
      Except.error invalidExprMsg ∧
    containsSub invalidExprMsg (str "Bogus") = false :=
  ⟨by decide, by decide⟩

/-- C7 (amended): a definition referencing a nonexistent column is always
rejected — whether or not it carries a `name=` prefix — and the `Except`
result models that `computed_columns` is mutated only on success, so an
error leaves the list exactly as it was.  Clause 1: a rejected prefix makes
the whole attempt fail with the prefix's error before column validation.
For an accepted split (with any custom name, or none), the error names the
column for an aggregate definition (clause 2) and for an arithmetic
definition (clause 3); for a bare unknown column name the generic
invalid-format error is produced instead (clause 4). -/
theorem c7_unknown_column_rejected :
    (∀ (current_data : Option QueryResult) (ccs : List ComputedColumn) (expression e : Str),
      nameSplit (trimStr expression) = Except.error e →
      parse_and_add_computed_column current_data ccs expression = Except.error e) ∧
    (∀ (data : QueryResult) (ccs : List ComputedColumn) (expression : Str)
        (cn : Option Str) (expr_part func capture : Str),
      nameSplit (trimStr expression) = Except.ok (cn, expr_part) →
      anchoredAggMatch expr_part = some (func, capture) →
      data.columns.contains (trimStr capture) = false →
      parse_and_add_computed_column (some data) ccs expression =
        Except.error (colNotExistMsg (trimStr capture))) ∧
    (∀ (data : QueryResult) (ccs : List ComputedColumn) (expression : Str)
        (cn : Option Str) (expr_part missing : Str),
      nameSplit (trimStr expression) = Except.ok (cn, expr_part) →
      anchoredAggMatch expr_part = none →
      (expr_part.contains '+' ∨ expr_part.contains '-' ∨
        expr_part.contains '*' ∨ expr_part.contains '/' ∨
        expr_part.all (fun ch => ch.isDigit ∨ ch = '.' ∨ ch = ' ')) →
      missing ∈ extract_column_names expr_part →
      data.columns.contains missing = false →
      ∃ m, m ∈ extract_column_names expr_part ∧
        data.columns.contains m = false ∧
        parse_and_add_computed_column (some data) ccs expression =
          Except.error (colNotExistMsg m)) ∧
    (∀ (data : QueryResult) (ccs : List ComputedColumn) (expression : Str)
        (cn : Option Str) (expr_part : Str),
      nameSplit (trimStr expression) = Except.ok (cn, expr_part) →
      anchoredAggMatch expr_part = none →
      ¬ (expr_part.contains '+' ∨ expr_part.contains '-' ∨
        expr_part.contains '*' ∨ expr_part.contains '/' ∨
        expr_part.all (fun ch => ch.isDigit ∨ ch = '.' ∨ ch = ' ')) →
      (parseFloat (trimStr expr_part)).isSome = false →
      data.columns.contains expr_part = false →
      parse_and_add_computed_column (some data) ccs expression =
        Except.error invalidExprMsg) := by
  refine ⟨?_, ?_, ?_, ?_⟩
  · intro current_data ccs expression e hsplit
    simp only [parse_and_add_computed_column, hsplit]
  · intro data ccs expression cn expr_part func capture hsplit hmatch hcont
    simp only [parse_and_add_computed_column, hsplit, hmatch, hcont]
    simp
  · intro data ccs expression cn expr_part missing hsplit hmatch hcond hmem hcont
    have hex : ∃ x ∈ extract_column_names expr_part,
        (fun col => decide (¬ data.columns.contains col = true)) x = true := by
      refine ⟨missing, hmem, ?_⟩
      simp only [decide_eq_true_eq]
      simpa using hcont
    obtain ⟨m, hfm⟩ : ∃ m, (extract_column_names expr_part).find?
        (fun col => decide (¬ data.columns.contains col = true)) = some m := by
      cases hf : (extract_column_names expr_part).find?
          (fun col => decide (¬ data.columns.contains col = true)) with
      | none =>
        exfalso
        obtain ⟨x, hx, hpx⟩ := hex
        have := List.find?_eq_none.mp hf x hx
        exact this hpx
      | some m => exact ⟨m, rfl⟩
    have hpm := List.find?_some hfm
    have hmmem := List.mem_of_find?_eq_some hfm
    have hmc : data.columns.contains m = false := by
      simpa using hpm
    refine ⟨m, hmmem, hmc, ?_⟩
    simp only [parse_and_add_computed_column, hsplit, hmatch]
    rw [if_pos hcond]
    simp only [hfm]
  · intro data ccs expression cn expr_part hsplit hmatch hcond hpf hcont
    simp only [parse_and_add_computed_column, hsplit, hmatch]
    rw [if_neg hcond]
    simp only [hpf, hcont]
    simp

/-- C7 witness: the four amended cases at concrete definitions over the
one-column page `A`, exercising both prefixed (`total=sum(B)`, `z=Bogus`,
malformed `a b=sum(B)`) and unprefixed (`B+1`) inputs. -/
theorem c7_witness :
    parse_and_add_computed_column (some ⟨[str "A"], [[str "1"]], 1⟩) [] (str "a b=sum(B)") =
      Except.error (str "Column name can only contain letters, numbers, and underscores") ∧
    parse_and_add_computed_column (some ⟨[str "A"], [[str "1"]], 1⟩) [] (str "total=sum(B)") =
      Except.error (colNotExistMsg (trimStr (str "B"))) ∧
    (∃ m, m ∈ extract_column_names (str "B+1") ∧
      (⟨[str "A"], [[str "1"]], 1⟩ : QueryResult).columns.contains m = false ∧
      parse_and_add_computed_column (some ⟨[str "A"], [[str "1"]], 1⟩) [] (str "B+1") =
        Except.error (colNotExistMsg m)) ∧
    parse_and_add_computed_column (some ⟨[str "A"], [[str "1"]], 1⟩) [] (str "z=Bogus") =
      Except.error invalidExprMsg :=
  ⟨c7_unknown_column_rejected.1 (some ⟨[str "A"], [[str "1"]], 1⟩) [] (str "a b=sum(B)")
      (str "Column name can only contain letters, numbers, and underscores") (by decide),
   c7_unknown_column_rejected.2.1 ⟨[str "A"], [[str "1"]], 1⟩ [] (str "total=sum(B)")
      (some (str "total")) (str "sum(B)") (str "sum") (str "B")
      (by decide) (by decide) (by decide),
   c7_unknown_column_rejected.2.2.1 ⟨[str "A"], [[str "1"]], 1⟩ [] (str "B+1")
      none (str "B+1") (str "B")
      (by decide) (by decide) (by decide) (by decide) (by decide),
   c7_unknown_column_rejected.2.2.2 ⟨[str "A"], [[str "1"]], 1⟩ [] (str "z=Bogus")
      (some (str "z")) (str "Bogus")
      (by decide) (by decide) (by decide) (by decide) (by decide)⟩

/-! ## C3 — the row-length invariant across page mutations -/

/-- A found index is in range. -/
theorem findIdx?_lt_len {α : Type} {l : List α} {p : α → Bool} {i : Nat}
    (h : l.findIdx? p = some i) : i < l.length :=
  (List.findIdx?_eq_some_iff_findIdx_eq.mp h).1

/-- Removing one column index (any index) preserves the invariant: in range
it removes one column and one guarded cell per row, out of range it is a
no-op on both. -/
theorem removeIdxFromData_inv {d : QueryResult} (hinv : RowLenInv d) (pos : Nat) :
    RowLenInv (removeIdxFromData d pos) := by
  intro row hrow
  simp only [removeIdxFromData, List.mem_map] at hrow ⊢
  obtain ⟨row0, hmem, hrow0⟩ := hrow
  have hlen := hinv row0 hmem
  by_cases hp : pos < d.columns.length
  · have hp' : pos < row0.length := by omega
    rw [← hrow0, if_pos hp', List.length_eraseIdx, List.length_eraseIdx]
    simp [hp, hp', hlen]
  · have hp' : ¬ pos < row0.length := by omega
    rw [← hrow0, if_neg hp', List.length_eraseIdx]
    simp [hp, hlen]

/-- `removeColumnByName` preserves the invariant. -/
theorem removeColumnByName_inv {d : QueryResult} (hinv : RowLenInv d) (name : Str) :
    RowLenInv (removeColumnByName d name) := by
  unfold removeColumnByName
  split
  · exact removeIdxFromData_inv hinv _
  · exact hinv

/-- A successful per-row computation yields one value per row. -/
theorem computeRowValues_length {f : List Str → Except Str Str} :
    ∀ {rows : List (List Str)} {vals : List Str},
      computeRowValues f rows = Except.ok vals → vals.length = rows.length := by
  intro rows
  induction rows with
  | nil => intro vals h; cases h; rfl
  | cons row rest ih =>
    intro vals h
    simp only [computeRowValues] at h
    cases hf : f row with
    | error e => rw [hf] at h; cases h
    | ok v =>
      rw [hf] at h
      cases hr : computeRowValues f rest with
      | error e => rw [hr] at h; cases h
      | ok vs =>
        rw [hr] at h
        cases h
        simpa using ih hr

/-- Appending one computed value to every row of an invariant page restores
the invariant against the grown column list. -/
theorem zipWith_push_inv {n : Nat} :
    ∀ (rows : List (List Str)) (vals : List Str),
      vals.length = rows.length → (∀ row ∈ rows, row.length = n) →
      ∀ r ∈ List.zipWith (fun row v => row ++ [v]) rows vals, r.length = n + 1 := by
  intro rows
  induction rows with
  | nil => intro vals _ _ r hr; simp at hr
  | cons row rest ih =>
    intro vals hlen hall r hr
    cases vals with
    | nil => simp at hlen
    | cons v vs =>
      simp only [List.zipWith_cons_cons, List.mem_cons] at hr
      rcases hr with hr | hr
      · rw [hr]
        simp [hall row (List.mem_cons_self _ _)]
      · exact ih vs (by simpa using hlen) (fun x hx => hall x (List.mem_cons_of_mem _ hx)) r hr

/-- A successful `addComputedColumn` step preserves the invariant. -/
theorem addComputedColumn_inv {d : QueryResult} {cc : ComputedColumn}
    (hinv : RowLenInv d) (hok : (addComputedColumn d cc).2 = none) :
    RowLenInv (addComputedColumn d cc).1 := by
  unfold addComputedColumn at hok ⊢
  dsimp only at hok ⊢
  revert hok
  cases cc.column_type with
  | Aggregate func =>
    intro hok
    dsimp only at hok ⊢
    cases hc : compute_aggregate_static { d with columns := d.columns ++ [cc.name] } func
        cc.expression with
    | error e => rw [hc] at hok; cases hok
    | ok value =>
      dsimp only
      intro row hrow
      simp only [List.mem_map] at hrow
      obtain ⟨row0, hmem, hrow0⟩ := hrow
      have := hinv row0 hmem
      simp [← hrow0, this]
  | RowOperation columns_used =>
    intro hok
    dsimp only at hok ⊢
    cases hc : computeRowValues
        (fun row => compute_row_operation_static { d with columns := d.columns ++ [cc.name] }
          row cc.expression columns_used) d.rows with
    | error e => rw [hc] at hok; cases hok
    | ok vals =>
      dsimp only
      intro row hrow
      simp only [List.length_append, List.length_cons, List.length_nil]
      refine zipWith_push_inv d.rows vals (computeRowValues_length hc)
        (fun x hx => hinv x hx) row ?_
      simpa using hrow
  | MixedOperation columns_used aggs =>
    intro hok
    dsimp only at hok ⊢
    cases hc : computeRowValues
        (fun row => compute_mixed_operation_static { d with columns := d.columns ++ [cc.name] }
          row cc.expression columns_used aggs) d.rows with
    | error e => rw [hc] at hok; cases hok
    | ok vals =>
      dsimp only
      intro row hrow
      simp only [List.length_append, List.length_cons, List.length_nil]
      refine zipWith_push_inv d.rows vals (computeRowValues_length hc)
        (fun x hx => hinv x hx) row ?_
      simpa using hrow

/-- A successful `apply_computed_columns` pass preserves the invariant. -/
theorem applyCCListGo_inv :
    ∀ (ccs : List ComputedColumn) (d : QueryResult), RowLenInv d →
      (applyCCListGo ccs d).2 = none → RowLenInv (applyCCListGo ccs d).1 := by
  intro ccs
  induction ccs with
  | nil => intro d hinv _; exact hinv
  | cons cc rest ih =>
    intro d hinv hok
    simp only [applyCCListGo] at hok ⊢
    cases hstep : (addComputedColumn (removeColumnByName d cc.name) cc).2 with
    | some e => rw [hstep] at hok; simp at hok
    | none =>
      rw [hstep] at hok
      dsimp only at hok ⊢
      exact ih _ (addComputedColumn_inv (removeColumnByName_inv hinv _) hstep) hok

/-- The removal phase of `refresh_computed_columns` preserves the invariant. -/
theorem refreshRemove_inv {ccs : List ComputedColumn} {d : QueryResult}
    (hinv : RowLenInv d) : RowLenInv (refreshRemove ccs d) := by
  unfold refreshRemove
  dsimp only
  generalize (sortNatDesc (ccs.filterMap fun cc => d.columns.findIdx? fun x => x = cc.name)) = ps
  induction ps generalizing d with
  | nil => exact hinv
  | cons p rest ih => exact ih (removeIdxFromData_inv hinv p)

/-- The re-addition phase preserves the invariant when it succeeds. -/
theorem addAllComputedColumns_inv :
    ∀ (ccs : List ComputedColumn) (d : QueryResult), RowLenInv d →
      (addAllComputedColumns ccs d).2 = none → RowLenInv (addAllComputedColumns ccs d).1 := by
  intro ccs
  induction ccs with
  | nil => intro d hinv _; exact hinv
  | cons cc rest ih =>
    intro d hinv hok
    simp only [addAllComputedColumns] at hok ⊢
    cases hstep : (addComputedColumn d cc).2 with
    | some e => rw [hstep] at hok; simp at hok
    | none =>
      rw [hstep] at hok
      dsimp only at hok ⊢
      exact ih _ (addComputedColumn_inv hinv hstep) hok

/-- A successful `refresh_computed_columns` pass preserves the invariant. -/
theorem refreshCCList_inv {ccs : List ComputedColumn} {d : QueryResult}
    (hinv : RowLenInv d) (hok : (refreshCCList ccs d).2 = none) :
    RowLenInv (refreshCCList ccs d).1 :=
  addAllComputedColumns_inv ccs _ (refreshRemove_inv hinv) hok

/-- Setting one cell of one (in-range) row preserves the invariant. -/
theorem set_cell_inv {data : QueryResult} (hinv : RowLenInv data) {r : Nat} (c : Nat)
    (v : Str) (hr : r < data.rows.length) :
    RowLenInv { data with
      rows := data.rows.set r ((data.rows.getD r []).set c v) } := by
  intro row hrow
  rcases List.mem_or_eq_of_mem_set hrow with h | h
  · exact hinv row h
  · have hmem : data.rows.getD r [] ∈ data.rows := by
      rw [List.getD_eq_getElem?_getD, List.getElem?_eq_getElem hr, Option.getD_some]
      exact List.getElem_mem hr
    rw [h, List.length_set]
    exact hinv _ hmem

/-- C3 counterexample: applying the computed column `S = sum(B)` to the page
`A = [1]` (invariant-satisfying) fails — `B` does not exist — and the failed
application leaves the page with TWO columns but a one-cell row: the
invariant is violated on the error path, because the column name is pushed
before the values are computed. -/
theorem c3_counterexample :
    RowLenInv dBadAgg ∧
    (applyCCListGo [ccBadAgg] dBadAgg).2.isSome = true ∧
    ¬ RowLenInv (applyCCListGo [ccBadAgg] dBadAgg).1 ∧
    (applyCCListGo [ccBadAgg] dBadAgg).1.columns.length = 2 ∧
    ((applyCCListGo [ccBadAgg] dBadAgg).1.rows.getD 0 []).length = 1 := by
  refine ⟨by decide, by decide, by decide, by decide, by decide⟩

/-- C3 (amended): committing a cell edit, appending a row with `n`, and
applying or refreshing computed columns all preserve the row-length
invariant on their success paths — but the error paths of
`apply_computed_columns` and `refresh_computed_columns` can break it (see
the counterexample), since the column name is pushed before the values.
Success of the refresh inside the Enter commit is observable as the handler
ending in `Data` mode (a refresh failure ends in `ErrorDisplay`). -/
theorem c3_rowlen_invariant_amended :
    (∀ (ccs : List ComputedColumn) (d : QueryResult), RowLenInv d →
      (applyCCListGo ccs d).2 = none → RowLenInv (applyCCListGo ccs d).1) ∧
    (∀ (ccs : List ComputedColumn) (d : QueryResult), RowLenInv d →
      (refreshCCList ccs d).2 = none → RowLenInv (refreshCCList ccs d).1) ∧
    (∀ (ds : DataSourceM) (pers : PersistenceM) (ctrl : Bool) (st : AppState)
        (data : QueryResult),
      st.current_data = some data → RowLenInv data →
      ∀ d', (handle_data_navigation ds pers (KeyCode.char 'n') ctrl st).1.current_data =
          some d' → RowLenInv d') ∧
    (∀ (ds : DataSourceM) (pers : PersistenceM) (ctrl : Bool) (st : AppState)
        (data : QueryResult),
      st.current_data = some data → RowLenInv data →
      (handle_edit_mode ds pers KeyCode.enter ctrl st).1.navigation_mode =
          NavigationMode.Data →
      ∀ d', (handle_edit_mode ds pers KeyCode.enter ctrl st).1.current_data = some d' →
        RowLenInv d') := by
  refine ⟨fun ccs d hinv hok => applyCCListGo_inv ccs d hinv hok,
    fun ccs d hinv hok => refreshCCList_inv hinv hok, ?_, ?_⟩
  · intro ds pers ctrl st data hdata hinv d' hd'
    simp only [handle_data_navigation, hdata] at hd'
    norm_num at hd'
    rw [if_neg (by decide : ¬ ('n' = ' '))] at hd'
    dsimp only at hd'
    rw [Option.some.injEq] at hd'
    subst hd'
    intro row hrow
    simp only [List.mem_append, List.mem_singleton] at hrow
    rcases hrow with hrow | hrow
    · simpa using hinv row hrow
    · rw [hrow]
      simp
  · intro ds pers ctrl st data hdata hinv hmode d' hd'
    have tail : ∀ (st2 : AppState) (d2 : QueryResult), st2.current_data = some d2 →
        RowLenInv d2 → ∀ e', (refresh_computed_columns_st st2).2 = none →
        (refresh_computed_columns_st st2).1.current_data = some e' → RowLenInv e' := by
      intro st2 d2 hcd hinv2 e' hok hcd'
      simp only [refresh_computed_columns_st, hcd] at hok hcd'
      rw [Option.some.injEq] at hcd'
      subst hcd'
      exact refreshCCList_inv hinv2 hok
    simp only [handle_edit_mode, hdata] at hmode hd'
    cases hcell : st.editing_cell with
    | none =>
      simp only [hcell] at hmode hd'
      cases hr : (refresh_computed_columns_st
          { st with navigation_mode := NavigationMode.Data, editing_cell := none,
                    edit_input := [] }).2 with
      | some e =>
        rw [hr] at hmode
        simp [show_error] at hmode
      | none =>
        rw [hr] at hd'
        dsimp only at hd'
        exact tail _ data (by exact hdata) hinv d' hr hd'
    | some rc =>
      obtain ⟨r, c⟩ := rc
      simp only [hcell] at hmode hd'
      by_cases hrange : r < data.rows.length ∧ c < data.columns.length
      · by_cases hrowid : data.columns ≠ [] ∧ data.columns.head? = some (str "rowid") ∧ c = 0
        · rw [if_pos hrange, if_pos hrowid] at hmode hd'
          cases hr : (refresh_computed_columns_st
              { show_error st (str "Cannot edit rowid column") with
                navigation_mode := NavigationMode.Data, editing_cell := none,
                edit_input := [] }).2 with
          | some e =>
            rw [hr] at hmode
            simp [show_error] at hmode
          | none =>
            rw [hr] at hd'
            dsimp only at hd'
            exact tail _ data (by simp [show_error, hdata]) hinv d' hr hd'
        · rw [if_pos hrange, if_neg hrowid] at hmode hd'
          cases hr : (refresh_computed_columns_st
              { st with
                current_data := some { data with
                  rows := data.rows.set r ((data.rows.getD r []).set c st.edit_input) },
                data_modified := true,
                status_message := some (str "Cell updated (not saved)"),
                navigation_mode := NavigationMode.Data, editing_cell := none,
                edit_input := [] }).2 with
          | some e =>
            rw [hr] at hmode
            simp [show_error] at hmode
          | none =>
            rw [hr] at hd'
            dsimp only at hd'
            exact tail _ _ (by exact rfl) (set_cell_inv hinv c st.edit_input hrange.1) d' hr hd'
      · rw [if_neg hrange] at hmode hd'
        cases hr : (refresh_computed_columns_st
            { st with navigation_mode := NavigationMode.Data, editing_cell := none,
                      edit_input := [] }).2 with
        | some e =>
          rw [hr] at hmode
          simp [show_error] at hmode
        | none =>
          rw [hr] at hd'
          dsimp only at hd'
          exact tail _ data (by exact hdata) hinv d' hr hd'

/-- C3 witness: all four amended clauses at concrete pages — a succeeding
apply/refresh of `S = sum(A)`, a row append, and a committed edit. -/
theorem c3_witness :
    RowLenInv (applyCCListGo [⟨str "S", str "sum(A)", ComputedColumnType.Aggregate (str "sum")⟩]
      dShadow).1 ∧
    RowLenInv (refreshCCList [⟨str "S", str "sum(A)", ComputedColumnType.Aggregate (str "sum")⟩]
      dShadow).1 ∧
    RowLenInv (⟨[str "A"], [[str "7"], [([] : Str)]], 2⟩ : QueryResult) ∧
    RowLenInv (⟨[str "A", str "B"], [[str "9", str "2"]], 1⟩ : QueryResult) :=
  ⟨c3_rowlen_invariant_amended.1 _ dShadow (by decide) (by decide),
   c3_rowlen_invariant_amended.2.1 _ dShadow (by decide) (by decide),
   c3_rowlen_invariant_amended.2.2.1 exDS exPers false stDownEnd ⟨[str "A"], [[str "7"]], 1⟩
     rfl (by decide) ⟨[str "A"], [[str "7"], [([] : Str)]], 2⟩ (by decide),
   c3_rowlen_invariant_amended.2.2.2 exDS exPers false stEditPlain
     ⟨[str "A", str "B"], [[str "1", str "2"]], 1⟩ rfl (by decide) (by decide)
     ⟨[str "A", str "B"], [[str "9", str "2"]], 1⟩ (by decide)⟩

/-! ## C10 — re-applying the computed-column list -/

/-- The source's `position`-then-`remove` equals `List.erase`. -/
theorem findIdx_eraseIdx_eq_erase : ∀ (l : List Str) (n : Str),
    (match l.findIdx? (fun x => x = n) with
     | some i => l.eraseIdx i
     | none => l) = l.erase n := by
  intro l n
  induction l with
  | nil => rfl
  | cons a l ih =>
    rw [List.findIdx?_cons]
    by_cases h : a = n
    · subst h
      simp [List.erase_cons_head]
    · simp only [h, decide_False, if_false, List.findIdx?_succ]
      have htail : (a :: l).erase n = a :: l.erase n := by
        rw [List.erase_cons_tail]
        intro hc
        simp at hc
        exact h hc
      rw [htail]
      cases hf : l.findIdx? (fun x => x = n) with
      | none =>
        rw [hf] at ih
        simp [hf, ← ih]
      | some i =>
        rw [hf] at ih
        dsimp only at ih
        simp [hf, List.eraseIdx_cons_succ, ih]

/-- The columns after the removal step of `apply_computed_columns`. -/
theorem removeColumnByName_columns (d : QueryResult) (n : Str) :
    (removeColumnByName d n).columns = d.columns.erase n := by
  unfold removeColumnByName
  rw [← findIdx_eraseIdx_eq_erase d.columns n]
  cases h : d.columns.findIdx? (fun x => x = n) <;> simp [h]

/-- The addition step always appends the column name (also on its error
path). -/
theorem addComputedColumn_columns (d : QueryResult) (cc : ComputedColumn) :
    (addComputedColumn d cc).1.columns = d.columns ++ [cc.name] := by
  unfold addComputedColumn
  dsimp only
  cases cc.column_type <;> dsimp only <;> split <;> rfl

/-- A successful `apply_computed_columns` pass evolves the column list by
`colStep` (erase the name, append it) once per computed column. -/
theorem applyCCListGo_columns : ∀ (ccs : List ComputedColumn) (d : QueryResult),
    (applyCCListGo ccs d).2 = none →
    (applyCCListGo ccs d).1.columns = colStepFold d.columns (ccs.map (fun cc => cc.name)) := by
  intro ccs
  induction ccs with
  | nil => intro d _; rfl
  | cons cc rest ih =>
    intro d hok
    simp only [applyCCListGo] at hok ⊢
    cases hstep : (addComputedColumn (removeColumnByName d cc.name) cc).2 with
    | some e => rw [hstep] at hok; simp at hok
    | none =>
      rw [hstep] at hok
      dsimp only at hok ⊢
      rw [ih _ hok]
      simp only [List.map_cons, colStepFold, List.foldl_cons]
      congr 1
      rw [addComputedColumn_columns, removeColumnByName_columns]
      rfl

/-- Erasing a different element commutes with a trailing singleton. -/
theorem erase_append_single (X : List Str) (n m : Str) (h : m ≠ n) :
    (X ++ [n]).erase m = X.erase m ++ [n] := by
  by_cases hm : m ∈ X
  · exact List.erase_append_left [n] hm
  · rw [List.erase_append_right [n] hm, List.erase_of_not_mem hm,
      List.erase_of_not_mem (by simp [h])]

/-- `eraseAllL` ignores a trailing singleton not among the names. -/
theorem eraseAllL_append_single : ∀ (ns : List Str) (X : List Str) (n : Str), n ∉ ns →
    eraseAllL (X ++ [n]) ns = eraseAllL X ns ++ [n] := by
  intro ns
  induction ns with
  | nil => intro X n _; rfl
  | cons m ns ih =>
    intro X n hn
    have hmn : m ≠ n := fun h => hn (h ▸ List.mem_cons_self _ _)
    simp only [eraseAllL, List.foldl_cons]
    rw [erase_append_single X n m hmn]
    exact ih _ _ (fun h => hn (List.mem_cons_of_mem _ h))

/-- The shape of a full pass from distinct names: surviving columns, then
the computed names in order. -/
theorem colStepFold_shape : ∀ (ns : List Str) (cols : List Str), ns.Nodup →
    colStepFold cols ns = eraseAllL cols ns ++ ns := by
  intro ns
  induction ns with
  | nil => intro cols _; simp [colStepFold, eraseAllL]
  | cons n ns ih =>
    intro cols hnd
    have hn : n ∉ ns := (List.nodup_cons.mp hnd).1
    simp only [colStepFold, List.foldl_cons, eraseAllL]
    rw [show List.foldl colStep (colStep cols n) ns = colStepFold (colStep cols n) ns from rfl,
      ih _ (List.nodup_cons.mp hnd).2]
    rw [show colStep cols n = cols.erase n ++ [n] from rfl]
    rw [eraseAllL_append_single ns (cols.erase n) n hn]
    simp only [List.append_assoc, List.singleton_append]
    rfl

/-- Whatever `eraseAllL` returns came from the input list. -/
theorem mem_of_mem_eraseAllL : ∀ (ns : List Str) (cols : List Str) (x : Str),
    x ∈ eraseAllL cols ns → x ∈ cols := by
  intro ns
  induction ns with
  | nil => intro cols x h; exact h
  | cons m ns ih =>
    intro cols x h
    exact List.mem_of_mem_erase (ih _ _ h)

/-- On a duplicate-free column list, every erased name stays erased. -/
theorem not_mem_eraseAllL : ∀ (ns : List Str) (cols : List Str) (n : Str),
    cols.Nodup → n ∈ ns → n ∉ eraseAllL cols ns := by
  intro ns
  induction ns with
  | nil => intro cols n _ h; cases h
  | cons m ns ih =>
    intro cols n hnd hn hmem
    simp only [eraseAllL, List.foldl_cons] at hmem
    rcases List.mem_cons.mp hn with h | h
    · subst h
      exact hnd.not_mem_erase (mem_of_mem_eraseAllL ns _ _ hmem)
    · exact ih _ n (hnd.erase m) h hmem

/-- `eraseAllL` preserves distinctness. -/
theorem eraseAllL_nodup : ∀ (ns : List Str) (cols : List Str), cols.Nodup →
    (eraseAllL cols ns).Nodup := by
  intro ns
  induction ns with
  | nil => intro cols h; exact h
  | cons m ns ih => intro cols h; exact ih _ (h.erase m)

/-- Rotating an already-applied pass: each name is erased from the tail and
re-appended, restoring the same list. -/
theorem colStepFold_rotate : ∀ (rest p B : List Str), (B ++ (rest ++ p)).Nodup →
    colStepFold (B ++ rest ++ p) rest = B ++ p ++ rest := by
  intro rest
  induction rest with
  | nil => intro p B _; simp [colStepFold]
  | cons r rest ih =>
    intro p B hnd
    have hrB : r ∉ B := by
      rcases List.nodup_append.mp hnd with ⟨_, _, hdisj⟩
      intro hr
      exact hdisj hr (by simp)
    simp only [colStepFold, List.foldl_cons]
    have hstep : colStep (B ++ (r :: rest) ++ p) r = B ++ rest ++ (p ++ [r]) := by
      rw [show colStep (B ++ (r :: rest) ++ p) r = ((B ++ (r :: rest) ++ p).erase r) ++ [r]
          from rfl]
      rw [List.append_assoc B (r :: rest) p, List.erase_append_right _ hrB]
      simp [List.erase_cons_head, List.append_assoc]
    rw [hstep]
    have hperm : List.Perm (B ++ ((r :: rest) ++ p)) (B ++ (rest ++ (p ++ [r]))) := by
      apply List.Perm.append_left
      have hp := (List.perm_append_singleton r (rest ++ p)).symm
      simpa [List.append_assoc] using hp
    have hnd' := hperm.nodup hnd
    rw [show List.foldl colStep (B ++ rest ++ (p ++ [r])) rest =
        colStepFold (B ++ rest ++ (p ++ [r])) rest from rfl]
    rw [ih (p ++ [r]) B hnd']
    simp [List.append_assoc]

/-- C10 counterexample: for the page `A = [1, 2]` with computed columns
`S = sum(A)` then `A = 10` (a computed column shadowing the source column
referenced by the earlier aggregate), both applications succeed but applying
the list twice yields different cell values than applying it once: `S`
becomes `"20"` (the sum of the shadowed constants) instead of `"3"`. -/
theorem c10_counterexample :
    (applyCCListGo ccsShadow dShadow).2 = none ∧
    (applyCCListGo ccsShadow (applyCCListGo ccsShadow dShadow).1).2 = none ∧
    (applyCCListGo ccsShadow (applyCCListGo ccsShadow dShadow).1).1.rows ≠
      (applyCCListGo ccsShadow dShadow).1.rows ∧
    (applyCCListGo ccsShadow dShadow).1.rows = [[str "3", str "10"], [str "3", str "10"]] ∧
    (applyCCListGo ccsShadow (applyCCListGo ccsShadow dShadow).1).1.rows =
      [[str "20", str "10"], [str "20", str "10"]] := by
  refine ⟨by decide, by decide, by decide, by decide, by decide⟩

/-- C10 (amended): before appending each computed column, any existing
column with the same name — including a source column sharing the name — is
removed from the column list (and the guarded cells from every row); hence,
for distinct computed-column names over a duplicate-free page, a successful
application yields a duplicate-free column list, and re-applying the list
reproduces the same column list.  Cell VALUES, however, need not be
idempotent: a computed column shadowing a source column that an earlier
aggregate references changes that aggregate on re-application (see the
counterexample). -/
theorem c10_reapply_amended :
    (∀ (d : QueryResult) (cc : ComputedColumn),
      (addComputedColumn (removeColumnByName d cc.name) cc).1.columns =
        d.columns.erase cc.name ++ [cc.name]) ∧
    (∀ (ccs : List ComputedColumn) (d : QueryResult),
      d.columns.Nodup → (ccs.map (fun cc => cc.name)).Nodup →
      (applyCCListGo ccs d).2 = none → (applyCCListGo ccs d).1.columns.Nodup) ∧
    (∀ (ccs : List ComputedColumn) (d : QueryResult),
      d.columns.Nodup → (ccs.map (fun cc => cc.name)).Nodup →
      (applyCCListGo ccs d).2 = none →
      (applyCCListGo ccs (applyCCListGo ccs d).1).2 = none →
      (applyCCListGo ccs (applyCCListGo ccs d).1).1.columns =
        (applyCCListGo ccs d).1.columns) := by
  have hshape : ∀ (ccs : List ComputedColumn) (d : QueryResult),
      (ccs.map (fun cc => cc.name)).Nodup →
      (applyCCListGo ccs d).2 = none →
      (applyCCListGo ccs d).1.columns =
        eraseAllL d.columns (ccs.map (fun cc => cc.name)) ++ ccs.map (fun cc => cc.name) := by
    intro ccs d hnn hok
    rw [applyCCListGo_columns ccs d hok, colStepFold_shape _ _ hnn]
  have hnd : ∀ (ccs : List ComputedColumn) (d : QueryResult),
      d.columns.Nodup → (ccs.map (fun cc => cc.name)).Nodup →
      (eraseAllL d.columns (ccs.map fun cc => cc.name) ++
        ccs.map (fun cc => cc.name)).Nodup := by
    intro ccs d hcn hnn
    refine List.Nodup.append (eraseAllL_nodup _ _ hcn) hnn ?_
    intro a haB hans
    exact not_mem_eraseAllL _ _ _ hcn hans haB
  refine ⟨?_, ?_, ?_⟩
  · intro d cc
    rw [addComputedColumn_columns, removeColumnByName_columns]
  · intro ccs d hcn hnn hok
    rw [hshape ccs d hnn hok]
    exact hnd ccs d hcn hnn
  · intro ccs d hcn hnn hok1 hok2
    rw [applyCCListGo_columns _ _ hok2, hshape ccs d hnn hok1]
    have hrot := colStepFold_rotate (ccs.map fun cc => cc.name) []
      (eraseAllL d.columns (ccs.map fun cc => cc.name))
      (by simpa using hnd ccs d hcn hnn)
    simpa [colStepFold] using hrot

/-- C10 witness: the amended clauses at the shadowing fixture — the column
list is stable and duplicate-free even though the values differ. -/
theorem c10_witness :
    (addComputedColumn (removeColumnByName dShadow (str "A"))
      ⟨str "A", str "10", ComputedColumnType.RowOperation []⟩).1.columns =
      dShadow.columns.erase (str "A") ++ [str "A"] ∧
    (applyCCListGo ccsShadow dShadow).1.columns.Nodup ∧
    (applyCCListGo ccsShadow (applyCCListGo ccsShadow dShadow).1).1.columns =
      (applyCCListGo ccsShadow dShadow).1.columns :=
  ⟨c10_reapply_amended.1 dShadow ⟨str "A", str "10", ComputedColumnType.RowOperation []⟩,
   c10_reapply_amended.2.1 ccsShadow dShadow (by decide) (by decide) (by decide),
   c10_reapply_amended.2.2 ccsShadow dShadow (by decide) (by decide) (by decide) (by decide)⟩

end SQB
